import Mathlib

/-!
# rawlog-edit: GPS + gas-sensor KML export (`rawlog-edit_gps_gas.cpp`)

A shallow embedding of the observation correlator (`processOneObservation`)
and of the KML writer (`generate_KML`) of
`src/apps/rawlog-tools/rawlog-edit_gps_gas.cpp`.

Modelling conventions:

* `double` values live in an arbitrary linearly ordered field `R`
  (exact arithmetic: no rounding, no NaN, no signed zero);
* `TTimeStamp` (an unsigned 64-bit count) and the `uint8_t` fix quality are
  natural numbers: the code only copies and compares them;
* a `std::map` is the list of its entries in strictly ascending key order,
  which is the order in which its iterators visit them;
* the pointers `obs` and `obsGas` are options (`NULL` is `none`) holding the
  fields of the observation they point to;
* the file written by `generate_KML` is the list of the pieces it prints.
-/

namespace RawlogGpsGas

/-! ## Data model -/

/-- Timestamps (`mrpt::system::TTimeStamp`, an unsigned 64-bit integer). -/
abbrev TTimeStamp := Nat

/-- One stored point: `struct TGPSGASDataPoint` (lines 23-28). -/
structure TGPSGASDataPoint (R : Type) where
  lon : R
  lat : R
  alt : R
  fix : Nat
  color : R
deriving DecidableEq, Repr

/-- The path of one sensor label: `struct TDataPerGPSGAS` (lines 30-33). -/
structure TDataPerGPSGAS (R : Type) where
  path : List (TTimeStamp × TGPSGASDataPoint R)
deriving DecidableEq, Repr

/-- The fields of `CObservationGPS::GGA_datum` that the program reads
(lines 83-86); the library declares the datum, not the source file. -/
structure TGPSDatum_GGA (R : Type) where
  longitude_degrees : R
  latitude_degrees : R
  altitude_meters : R
  fix_quality : Nat
deriving DecidableEq, Repr

/-- The fields of a `CObservationGPS` that the program reads. -/
structure CObservationGPS (R : Type) where
  sensorLabel : String
  timestamp : TTimeStamp
  has_GGA_datum : Bool
  GGA_datum : TGPSDatum_GGA R
deriving DecidableEq, Repr

/-- The fields of a `CObservationGasSensors` that the program reads. -/
structure CObservationGasSensors where
  sensorLabel : String
  timestamp : TTimeStamp
deriving DecidableEq, Repr

/-- An observation of the rawlog, by run-time class (`IS_CLASS`, lines 61-75):
a GPS observation, a gas-sensor observation, or any other class, of which
only the timestamp is kept. -/
inductive CObservation (R : Type) where
  | gps (o : CObservationGPS R)
  | gas (o : CObservationGasSensors)
  | other (timestamp : TTimeStamp)
deriving DecidableEq, Repr

/-- The timestamp of an observation: `o->timestamp` (line 81). -/
def CObservation.timestamp {R : Type} : CObservation R → TTimeStamp
  | .gps o => o.timestamp
  | .gas o => o.timestamp
  | .other t => t

/-! ## `std::map` as a list of entries in ascending key order -/

section StdMap

variable {K V : Type} [LinearOrder K]

/-- The effect of `f (m[k])` on a `std::map`: `operator[]` finds the entry of
`k`, inserting `dflt` at its place in key order when there is none, and the
caller then updates the value in place. -/
def mapModify (dflt : V) (f : V → V) (k : K) : List (K × V) → List (K × V)
  | [] => [(k, f dflt)]
  | (k', v) :: rest =>
    if k < k' then (k, f dflt) :: (k', v) :: rest
    else if k = k' then (k', f v) :: rest
    else (k', v) :: mapModify dflt f k rest

/-- The value stored under `k`, if any (`std::map::find`). -/
def mapFind (k : K) : List (K × V) → Option V
  | [] => none
  | (k', v) :: rest => if k = k' then some v else mapFind k rest

/-- The class invariant of `std::map`: keys strictly ascending. -/
def mapSorted (m : List (K × V)) : Prop :=
  List.Pairwise (fun a b => a.1 < b.1) m

end StdMap

/-! ## The correlator: `processOneObservation` (lines 59-93) -/

/-- The members of `CRawlogProcessor_ExportGPSGAS_KML` that
`processOneObservation` reads and writes (lines 46-49). -/
structure ProcessorState (R : Type) where
  m_gps_paths : List (String × TDataPerGPSGAS R)
  obs : Option (CObservationGPS R)
  obsGas : Option CObservationGasSensors
deriving DecidableEq, Repr

/-- The state the specification starts a replay from: empty `m_gps_paths`,
both pointers `NULL`. (The constructor, lines 52-56, leaves the two pointers
uninitialised; the specification takes both slots to be empty.) -/
def ProcessorState.initial (R : Type) : ProcessorState R :=
  { m_gps_paths := [], obs := none, obsGas := none }

/-- The assignments of lines 83-87 to the point `d`. -/
def fillPoint {R : Type} [One R] (g : TGPSDatum_GGA R) (d : TGPSGASDataPoint R) :
    TGPSGASDataPoint R :=
  { d with
    lon := g.longitude_degrees
    lat := g.latitude_degrees
    alt := g.altitude_meters
    fix := g.fix_quality
    color := 1 }

/-- Lines 80-87: `D = m_gps_paths[label]`, `d = D.path[ts]`, then the field
assignments. `operator[]` value-initialises a missing entry. -/
def recordPoint {R : Type} [Zero R] [One R] (label : String) (ts : TTimeStamp)
    (g : TGPSDatum_GGA R) (m : List (String × TDataPerGPSGAS R)) :
    List (String × TDataPerGPSGAS R) :=
  mapModify (⟨[]⟩ : TDataPerGPSGAS R)
    (fun D => ⟨mapModify (⟨0, 0, 0, 0, 0⟩ : TGPSGASDataPoint R) (fillPoint g) ts D.path⟩)
    label m

/-- Lines 77-92: the insertion that follows the class dispatch. -/
def insertNewEntries {R : Type} [Zero R] [One R] (ts : TTimeStamp)
    (s : ProcessorState R) : Bool × ProcessorState R :=
  match s.obs, s.obsGas with
  | some g, some _ =>
    (true, { m_gps_paths := recordPoint g.sensorLabel ts g.GGA_datum s.m_gps_paths
             obs := none
             obsGas := none })
  | _, _ => (true, s)

/-- The method `processOneObservation` (lines 59-93): the returned boolean
and the state after the call. -/
def processOneObservation {R : Type} [Zero R] [One R] (s : ProcessorState R)
    (o : CObservation R) : Bool × ProcessorState R :=
  match o with
  | .gps g =>
    if !g.has_GGA_datum then
      (true, { s with obs := none })
    else
      insertNewEntries (CObservation.timestamp o) { s with obs := some g }
  | .gas a =>
    insertNewEntries (CObservation.timestamp o) { s with obsGas := some a }
  | .other _ => (true, s)

/-- Replaying a stream: `processOneObservation` on each observation in turn
(`doProcessRawlog`, line 246). -/
def replay {R : Type} [Zero R] [One R] (s : ProcessorState R) :
    List (CObservation R) → ProcessorState R
  | [] => s
  | o :: rest => replay (processOneObservation s o).2 rest

/-- Number of points stored in `m_gps_paths`, over all labels. -/
def totalPoints {R : Type} (m : List (String × TDataPerGPSGAS R)) : Nat :=
  (m.map (fun e => e.2.path.length)).sum

/-- The point stored under `label` at timestamp `ts`, if any. -/
def findPoint {R : Type} (label : String) (ts : TTimeStamp)
    (m : List (String × TDataPerGPSGAS R)) : Option (TGPSGASDataPoint R) :=
  match mapFind label m with
  | none => none
  | some D => mapFind ts D.path

/-- Both levels of `m_gps_paths` satisfy the `std::map` invariant. -/
def storeSorted {R : Type} (m : List (String × TDataPerGPSGAS R)) : Prop :=
  mapSorted m ∧ ∀ e ∈ m, mapSorted e.2.path

/-- The point `d`, stored under `label`, carries the longitude, latitude,
altitude and fix quality of a GPS observation of `stream` that has a GGA
datum and whose sensor label is `label`. -/
def FromValidFix {R : Type} (stream : List (CObservation R)) (label : String)
    (d : TGPSGASDataPoint R) : Prop :=
  ∃ g : CObservationGPS R, CObservation.gps g ∈ stream ∧ g.has_GGA_datum = true ∧
    g.sensorLabel = label ∧
    d.lon = g.GGA_datum.longitude_degrees ∧ d.lat = g.GGA_datum.latitude_degrees ∧
    d.alt = g.GGA_datum.altitude_meters ∧ d.fix = g.GGA_datum.fix_quality

/-- The invariant behind valid-fix provenance, for a state reached after the
observations `seen`: a pending GPS observation is one of `seen` and has a
GGA datum, and every stored point comes from such an observation. -/
def ProvenanceInv {R : Type} (seen : List (CObservation R)) (s : ProcessorState R) : Prop :=
  (∀ g, s.obs = some g → CObservation.gps g ∈ seen ∧ g.has_GGA_datum = true) ∧
  (∀ e ∈ s.m_gps_paths, ∀ p ∈ e.2.path, FromValidFix seen e.1 p.2)

/-! ## The KML writer: `generate_KML` (lines 95-239) -/

/-- The pieces `generate_KML` prints. The strings `LineString_START` and
`LineString_END` are declared outside the source file and are kept as symbols, and
so is each fixed piece of markup; `coordinates` is the line
`" lon,lat[,alt]\n"` of lines 162-164 and 216-218. -/
inductive KmlItem (R : Type) where
  | header
  | folderHeader (label : String)
  | pointPlacemark (label : String)
  | LineString_START
  | LineString_END
  | coordinates (lon lat : R) (alt : Option R)
  | placemarkEnd
  | rtkPlacemark (label : String)
  | multiGeometryStart
  | multiGeometryEnd
  | footer
deriving DecidableEq, Repr

/-- The constant of line 97. -/
def save_altitude : Bool := false

/-- Lines 162-164 and 216-218: the coordinate line of a point. -/
def printCoordinates {R : Type} (d : TGPSGASDataPoint R) : KmlItem R :=
  if save_altitude then .coordinates d.lon d.lat (some d.alt)
  else .coordinates d.lon d.lat none

/-- Lines 137-167: the loop over all points of a path, from the current value
of `hasSomeRTK`; returns the final `hasSomeRTK` and what was printed. -/
def allPointsLoop {R : Type} (label : String) :
    Bool → List (TTimeStamp × TGPSGASDataPoint R) → Bool × List (KmlItem R)
  | hasSomeRTK, [] => (hasSomeRTK, [])
  | hasSomeRTK, (_, d) :: rest =>
    let r := allPointsLoop label (if !hasSomeRTK && d.fix == 4 then true else hasSomeRTK) rest
    (r.1, .pointPlacemark label :: .LineString_START :: printCoordinates d :: r.2)

/-- The flag `hasSomeRTK` as line 175 reads it: initialised to `false`
(line 126) and updated by the loop over all points (line 166). -/
def hasSomeRTK {R : Type} (label : String) (path : List (TTimeStamp × TGPSGASDataPoint R)) :
    Bool :=
  (allPointsLoop label false path).1

section Segmenter

variable {R : Type} [LinearOrderedField R]

/-- Line 206: `6.371e6 * DEG2RAD(::hypot(last_valid.lon-d.lon, last_valid.lat-d.lat))`.
`hypot` (C library) and `DEG2RAD` (an MRPT macro) are declared outside the
source file and are parameters. -/
def dist (hypot : R → R → R) (DEG2RAD : R → R) (last_valid_lon last_valid_lat d_lon d_lat : R) :
    R :=
  6371000 * DEG2RAD (hypot (last_valid_lon - d_lon) (last_valid_lat - d_lat))

/-- Lines 195-225: the loop of the RTK-only block, from the current value of
`last_valid`; returns what was printed. `MIN_DIST_TO_SPLIT` is declared
outside the source file and is a parameter. -/
def rtkLoop (hypot : R → R → R) (DEG2RAD : R → R) (MIN_DIST_TO_SPLIT : R) :
    TGPSGASDataPoint R → List (TTimeStamp × TGPSGASDataPoint R) → List (KmlItem R)
  | _, [] => []
  | last_valid, (_, d) :: rest =>
    if d.fix ≠ 4 then
      rtkLoop hypot DEG2RAD MIN_DIST_TO_SPLIT last_valid rest
    else
      (if last_valid.lat ≠ 0 ∧ last_valid.lon ≠ 0 then
        (if dist hypot DEG2RAD last_valid.lon last_valid.lat d.lon d.lat > MIN_DIST_TO_SPLIT then
          [KmlItem.LineString_END, KmlItem.LineString_START]
        else [])
        ++ [printCoordinates d]
      else [])
      ++ rtkLoop hypot DEG2RAD MIN_DIST_TO_SPLIT d rest

/-- Lines 191-193: `last_valid` before the loop. Only `lat` and `lon` are
set; the other fields are never read before `last_valid = d` overwrites
them. -/
def last_valid_init : TGPSGASDataPoint R := ⟨0, 0, 0, 0, 0⟩

/-- Lines 175-232: the RTK-only block, printed when `hasSomeRTK` holds. -/
def rtkOnlyBlock (hypot : R → R → R) (DEG2RAD : R → R) (MIN_DIST_TO_SPLIT : R)
    (hasSomeRTK : Bool) (label : String) (path : List (TTimeStamp × TGPSGASDataPoint R)) :
    List (KmlItem R) :=
  if hasSomeRTK then
    [KmlItem.rtkPlacemark label, KmlItem.multiGeometryStart, KmlItem.LineString_START]
    ++ rtkLoop hypot DEG2RAD MIN_DIST_TO_SPLIT last_valid_init path
    ++ [KmlItem.LineString_END, KmlItem.multiGeometryEnd, KmlItem.placemarkEnd]
  else []

/-- Lines 123-232: what is printed for one sensor label. -/
def exportLabel (hypot : R → R → R) (DEG2RAD : R → R) (MIN_DIST_TO_SPLIT : R)
    (label : String) (D : TDataPerGPSGAS R) : List (KmlItem R) :=
  let r := allPointsLoop label false D.path
  KmlItem.folderHeader label :: r.2
  ++ [KmlItem.LineString_END, KmlItem.placemarkEnd]
  ++ rtkOnlyBlock hypot DEG2RAD MIN_DIST_TO_SPLIT r.1 label D.path

/-- Lines 121-234: the loop over the sensor labels. -/
def exportLabels (hypot : R → R → R) (DEG2RAD : R → R) (MIN_DIST_TO_SPLIT : R) :
    List (String × TDataPerGPSGAS R) → List (KmlItem R)
  | [] => []
  | (label, D) :: rest =>
    exportLabel hypot DEG2RAD MIN_DIST_TO_SPLIT label D
    ++ exportLabels hypot DEG2RAD MIN_DIST_TO_SPLIT rest

/-- The method `generate_KML` (lines 95-239): everything it prints. -/
def generate_KML (hypot : R → R → R) (DEG2RAD : R → R) (MIN_DIST_TO_SPLIT : R)
    (m_gps_paths : List (String × TDataPerGPSGAS R)) : List (KmlItem R) :=
  KmlItem.header :: exportLabels hypot DEG2RAD MIN_DIST_TO_SPLIT m_gps_paths
  ++ [KmlItem.footer]

end Segmenter

/-! ## Reading the segments off the printed document -/

/-- The line strings of a printed document, each as the list of
`(lon, lat)` pairs of its coordinate lines: `LineString_START` opens a line
string, a coordinate line extends the open one, `LineString_END` closes it.
The second argument is the line string currently open, if any. -/
def lineStrings {R : Type} : List (KmlItem R) → Option (List (R × R)) → List (List (R × R))
  | [], _ => []
  | .LineString_START :: rest, _ => lineStrings rest (some [])
  | .LineString_END :: rest, some cur => cur :: lineStrings rest none
  | .LineString_END :: rest, none => lineStrings rest none
  | .coordinates lon lat _ :: rest, some cur => lineStrings rest (some (cur ++ [(lon, lat)]))
  | _ :: rest, cur => lineStrings rest cur

/-- The segmentation `generate_KML` produces for the path of one sensor
label: the line strings of the RTK-only block that `exportLabel` prints. -/
def segmentation {R : Type} [LinearOrderedField R] (hypot : R → R → R) (DEG2RAD : R → R)
    (MIN_DIST_TO_SPLIT : R) (label : String) (path : List (TTimeStamp × TGPSGASDataPoint R)) :
    List (List (R × R)) :=
  lineStrings
    (rtkOnlyBlock hypot DEG2RAD MIN_DIST_TO_SPLIT (hasSomeRTK label path) label path) none

/-- The points of a path whose fix quality is 4, in path order, as
`(lon, lat)` pairs. -/
def rtkPoints {R : Type} (path : List (TTimeStamp × TGPSGASDataPoint R)) : List (R × R) :=
  (path.filter (fun e => e.2.fix == 4)).map (fun e => (e.2.lon, e.2.lat))

/-- The line strings that the loop of lines 195-225 leaves once the block is
closed at line 228, computed directly on the path: `cur` is the line string
open when the loop is at `last_valid`. Lemma `lineStrings_rtkLoop` shows
that this is what `lineStrings` reads off the output of `rtkLoop`. -/
def rtkSegments {R : Type} [LinearOrderedField R] (hypot : R → R → R) (DEG2RAD : R → R)
    (MIN_DIST_TO_SPLIT : R) :
    TGPSGASDataPoint R → List (R × R) → List (TTimeStamp × TGPSGASDataPoint R) →
      List (List (R × R))
  | _, cur, [] => [cur]
  | last_valid, cur, (_, d) :: rest =>
    if d.fix ≠ 4 then
      rtkSegments hypot DEG2RAD MIN_DIST_TO_SPLIT last_valid cur rest
    else if last_valid.lat ≠ 0 ∧ last_valid.lon ≠ 0 then
      (if dist hypot DEG2RAD last_valid.lon last_valid.lat d.lon d.lat > MIN_DIST_TO_SPLIT then
        cur :: rtkSegments hypot DEG2RAD MIN_DIST_TO_SPLIT d [(d.lon, d.lat)] rest
      else
        rtkSegments hypot DEG2RAD MIN_DIST_TO_SPLIT d (cur ++ [(d.lon, d.lat)]) rest)
    else
      rtkSegments hypot DEG2RAD MIN_DIST_TO_SPLIT d cur rest

/-- Two adjacent points of one segment are at distance at most the
threshold. -/
def WithinThreshold {R : Type} [LinearOrderedField R] (hypot : R → R → R) (DEG2RAD : R → R)
    (MIN_DIST_TO_SPLIT : R) (seg : List (R × R)) : Prop :=
  List.Chain' (fun a b => dist hypot DEG2RAD a.1 a.2 b.1 b.2 ≤ MIN_DIST_TO_SPLIT) seg

/-- The last point of a segment and the first point of the next one are at
distance more than the threshold. -/
def BoundaryExceeds {R : Type} [LinearOrderedField R] (hypot : R → R → R) (DEG2RAD : R → R)
    (MIN_DIST_TO_SPLIT : R) (s1 s2 : List (R × R)) : Prop :=
  ∀ a ∈ s1.getLast?, ∀ b ∈ s2.head?, dist hypot DEG2RAD a.1 a.2 b.1 b.2 > MIN_DIST_TO_SPLIT

/-- Segment maximality of a list of segments: adjacent points of a segment
are within the threshold, and consecutive segments are separated by more
than the threshold. -/
def SegmentMaximality {R : Type} [LinearOrderedField R] (hypot : R → R → R) (DEG2RAD : R → R)
    (MIN_DIST_TO_SPLIT : R) (segs : List (List (R × R))) : Prop :=
  (∀ seg ∈ segs, WithinThreshold hypot DEG2RAD MIN_DIST_TO_SPLIT seg) ∧
  List.Chain' (BoundaryExceeds hypot DEG2RAD MIN_DIST_TO_SPLIT) segs

/-- Segment maximality restricted to the pairs for which the loop computes a
distance, those whose earlier point passes the guard of line 202 (latitude
and longitude both non-zero): such adjacent points of a segment are within
the threshold, and such a last point of a segment is more than the threshold
away from the first point of the next segment. -/
def GuardedSegmentMaximality {R : Type} [LinearOrderedField R] (hypot : R → R → R)
    (DEG2RAD : R → R) (MIN_DIST_TO_SPLIT : R) (segs : List (List (R × R))) : Prop :=
  (∀ seg ∈ segs,
    List.Chain'
      (fun a b => (a.2 ≠ 0 ∧ a.1 ≠ 0) → dist hypot DEG2RAD a.1 a.2 b.1 b.2 ≤ MIN_DIST_TO_SPLIT)
      seg) ∧
  List.Chain'
    (fun s1 s2 => ∀ a ∈ s1.getLast?, ∀ b ∈ s2.head?,
      (a.2 ≠ 0 ∧ a.1 ≠ 0) → dist hypot DEG2RAD a.1 a.2 b.1 b.2 > MIN_DIST_TO_SPLIT)
    segs

/-- Modelled from the spec: the C library function `hypot`, declared outside
the source file, over exact real arithmetic: the magnitude of the planar
difference vector. -/
noncomputable def hypotReal (x y : ℝ) : ℝ := Real.sqrt (x ^ 2 + y ^ 2)

/-- Modelled from the spec: the MRPT macro `DEG2RAD`, declared outside the
source file, over exact real arithmetic: degrees to radians. -/
noncomputable def DEG2RADReal (x : ℝ) : ℝ := x * (Real.pi / 180)

/-- The segments of a segmentation that hold at least one point. A Segment of
the specification is a non-empty sequence of points, so these are the line
strings that are Segments in its sense. -/
def nonEmptySegments {R : Type} (segs : List (List (R × R))) : List (List (R × R)) :=
  segs.filter (fun seg => !seg.isEmpty)

/-- The key `(label, ts)` is present in `m_gps_paths`: some entry of `label`
has a point at timestamp `ts`. -/
def storeHasKey {R : Type} (label : String) (ts : TTimeStamp)
    (m : List (String × TDataPerGPSGAS R)) : Prop :=
  ∃ e ∈ m, e.1 = label ∧ ∃ p ∈ e.2.path, p.1 = ts

/-- Lines 201-220: what one pass of the loop of the RTK-only block prints for
a point `d` of fix quality 4 when the previous such point is `last_valid`. -/
def rtkStepItems {R : Type} [LinearOrderedField R] (hypot : R → R → R) (DEG2RAD : R → R)
    (MIN_DIST_TO_SPLIT : R) (last_valid d : TGPSGASDataPoint R) : List (KmlItem R) :=
  if last_valid.lat ≠ 0 ∧ last_valid.lon ≠ 0 then
    (if dist hypot DEG2RAD last_valid.lon last_valid.lat d.lon d.lat > MIN_DIST_TO_SPLIT then
      [KmlItem.LineString_END, KmlItem.LineString_START]
    else [])
    ++ [printCoordinates d]
  else []

/-- The coordinate lines of a printed document, in the order printed, as
`(lon, lat)` pairs. -/
def coordinatesOf {R : Type} : List (KmlItem R) → List (R × R)
  | [] => []
  | .coordinates lon lat _ :: rest => (lon, lat) :: coordinatesOf rest
  | _ :: rest => coordinatesOf rest

/-- The points of a path whose fix quality is 4, in path order. -/
def rtkData {R : Type} (path : List (TTimeStamp × TGPSGASDataPoint R)) :
    List (TGPSGASDataPoint R) :=
  (path.filter (fun e => e.2.fix == 4)).map Prod.snd

/-- The emission rule, stated on the list `q` of the quality-4 points: each
point that has a predecessor in `q` is paired with it, and the point is
written when the predecessor has non-zero latitude and non-zero longitude. -/
def emissionRule {R : Type} [LinearOrderedField R] (q : List (TGPSGASDataPoint R)) :
    List (R × R) :=
  ((q.zip q.tail).filter (fun pd => decide (pd.1.lat ≠ 0 ∧ pd.1.lon ≠ 0))).map
    (fun pd => (pd.2.lon, pd.2.lat))

/-! ## Lemmas on the `std::map` model -/

section StdMapLemmas

variable {K V : Type} [LinearOrder K]

theorem mapFind_eq_none_of_lt (k : K) (m : List (K × V)) (h : ∀ b ∈ m, k < b.1) :
    mapFind k m = none := by
  induction m with
  | nil => rfl
  | cons e rest ih =>
    obtain ⟨k', v⟩ := e
    have hne : k ≠ k' := ne_of_lt (h (k', v) (List.mem_cons_self _ _))
    simp only [mapFind, if_neg hne]
    exact ih (fun b hb => h b (List.mem_cons_of_mem _ hb))

theorem mapFind_some_mem (k : K) (v : V) (m : List (K × V)) (h : mapFind k m = some v) :
    (k, v) ∈ m := by
  induction m with
  | nil => simp [mapFind] at h
  | cons e rest ih =>
    obtain ⟨k', v'⟩ := e
    simp only [mapFind] at h
    split_ifs at h with h0
    · simp only [Option.some.injEq] at h
      subst h0
      subst h
      exact List.mem_cons_self _ _
    · exact List.mem_cons_of_mem _ (ih h)

theorem mapFind_mapModify_self (dflt : V) (f : V → V) (k : K) (m : List (K × V))
    (hm : mapSorted m) :
    mapFind k (mapModify dflt f k m) = some (f ((mapFind k m).getD dflt)) := by
  induction m with
  | nil => simp [mapModify, mapFind]
  | cons e rest ih =>
    obtain ⟨k', v⟩ := e
    unfold mapSorted at hm ih
    rw [List.pairwise_cons] at hm
    simp only [mapModify]
    split_ifs with h1 h2
    · have hne : k ≠ k' := ne_of_lt h1
      have hnone : mapFind k rest = none :=
        mapFind_eq_none_of_lt k rest (fun b hb => lt_trans h1 (hm.1 b hb))
      simp [mapFind, hne, hnone]
    · subst h2
      simp [mapFind]
    · simp [mapFind, h2, ih hm.2]

theorem mapFind_mapModify_self_exists (dflt : V) (f : V → V) (k : K) (m : List (K × V)) :
    ∃ v, mapFind k (mapModify dflt f k m) = some (f v) := by
  induction m with
  | nil => exact ⟨dflt, by simp [mapModify, mapFind]⟩
  | cons e rest ih =>
    obtain ⟨k', v⟩ := e
    simp only [mapModify]
    split_ifs with h1 h2
    · exact ⟨dflt, by simp [mapFind]⟩
    · exact ⟨v, by simp [mapFind, h2]⟩
    · obtain ⟨w, hw⟩ := ih
      exact ⟨w, by simp [mapFind, h2, hw]⟩

theorem mapFind_mapModify_other (dflt : V) (f : V → V) {k k' : K} (h : k' ≠ k)
    (m : List (K × V)) :
    mapFind k' (mapModify dflt f k m) = mapFind k' m := by
  induction m with
  | nil => simp [mapModify, mapFind, h]
  | cons e rest ih =>
    obtain ⟨k₀, v⟩ := e
    simp only [mapModify]
    split_ifs with h1 h2
    · simp [mapFind, h]
    · subst h2
      simp [mapFind, h]
    · simp [mapFind, ih]

theorem length_mapModify_le (dflt : V) (f : V → V) (k : K) (m : List (K × V)) :
    (mapModify dflt f k m).length ≤ m.length + 1 := by
  induction m with
  | nil => simp [mapModify]
  | cons e rest ih =>
    obtain ⟨k', v⟩ := e
    simp only [mapModify]
    split_ifs with h1 h2
    · simp
    · simp
    · simpa using ih

theorem length_mapModify_of_not_found (dflt : V) (f : V → V) (k : K) (m : List (K × V))
    (h : mapFind k m = none) :
    (mapModify dflt f k m).length = m.length + 1 := by
  induction m with
  | nil => simp [mapModify]
  | cons e rest ih =>
    obtain ⟨k', v⟩ := e
    simp only [mapFind] at h
    split_ifs at h with h0
    simp only [mapModify]
    split_ifs with h1
    · simp
    · simpa using ih h

theorem mem_mapModify (dflt : V) (f : V → V) (k : K) (m : List (K × V)) (e : K × V)
    (he : e ∈ mapModify dflt f k m) :
    e ∈ m ∨ (e.1 = k ∧ (e.2 = f dflt ∨ ∃ v, (k, v) ∈ m ∧ e.2 = f v)) := by
  induction m with
  | nil =>
    simp only [mapModify, List.mem_singleton] at he
    subst he
    exact Or.inr ⟨rfl, Or.inl rfl⟩
  | cons e₀ rest ih =>
    obtain ⟨k', v⟩ := e₀
    simp only [mapModify] at he
    split_ifs at he with h1 h2
    · rcases List.mem_cons.1 he with h | h
      · subst h
        exact Or.inr ⟨rfl, Or.inl rfl⟩
      · exact Or.inl h
    · subst h2
      rcases List.mem_cons.1 he with h | h
      · subst h
        exact Or.inr ⟨rfl, Or.inr ⟨v, List.mem_cons_self _ _, rfl⟩⟩
      · exact Or.inl (List.mem_cons_of_mem _ h)
    · rcases List.mem_cons.1 he with h | h
      · subst h
        exact Or.inl (List.mem_cons_self _ _)
      · rcases ih h with h' | ⟨hk, h'⟩
        · exact Or.inl (List.mem_cons_of_mem _ h')
        · refine Or.inr ⟨hk, ?_⟩
          rcases h' with h' | ⟨w, hw, hv⟩
          · exact Or.inl h'
          · exact Or.inr ⟨w, List.mem_cons_of_mem _ hw, hv⟩

theorem mapSorted_mapModify (dflt : V) (f : V → V) (k : K) (m : List (K × V))
    (hm : mapSorted m) : mapSorted (mapModify dflt f k m) := by
  induction m with
  | nil => simp [mapModify, mapSorted]
  | cons e₀ rest ih =>
    obtain ⟨k', v⟩ := e₀
    unfold mapSorted at hm ih ⊢
    rw [List.pairwise_cons] at hm
    simp only [mapModify]
    split_ifs with h1 h2
    · refine List.pairwise_cons.2 ⟨?_, List.pairwise_cons.2 hm⟩
      intro b hb
      rcases List.mem_cons.1 hb with h | h
      · subst h
        exact h1
      · exact lt_trans h1 (hm.1 b h)
    · exact List.pairwise_cons.2 ⟨hm.1, hm.2⟩
    · refine List.pairwise_cons.2 ⟨?_, ih hm.2⟩
      intro b hb
      rcases mem_mapModify dflt f k rest b hb with h | ⟨hk, _⟩
      · exact hm.1 b h
      · have hlt : k' < k := lt_of_le_of_ne (not_lt.1 h1) (Ne.symm h2)
        simpa [hk] using hlt

theorem count_key_mapModify [DecidableEq K] (dflt : V) (f : V → V) (k : K) (m : List (K × V))
    (hm : mapSorted m) : ((mapModify dflt f k m).map Prod.fst).count k = 1 := by
  have key : ∀ l : List (K × V), (∀ b ∈ l, k < b.1) → (l.map Prod.fst).count k = 0 := by
    intro l hl
    rw [List.count_eq_zero]
    intro hmem
    obtain ⟨b, hb, hbk⟩ := List.mem_map.1 hmem
    exact absurd hbk (ne_of_gt (hl b hb))
  induction m with
  | nil => simp [mapModify]
  | cons e₀ rest ih =>
    obtain ⟨k', v⟩ := e₀
    unfold mapSorted at hm ih
    rw [List.pairwise_cons] at hm
    simp only [mapModify]
    split_ifs with h1 h2
    · have h0 := key ((k', v) :: rest) (by
        intro b hb
        rcases List.mem_cons.1 hb with h | h
        · subst h
          exact h1
        · exact lt_trans h1 (hm.1 b h))
      rw [List.map_cons, List.count_cons_self, h0]
    · subst h2
      have h0 := key rest (fun b hb => hm.1 b hb)
      rw [List.map_cons, List.count_cons_self, h0]
    · rw [List.map_cons, List.count_cons_of_ne h2, ih hm.2]

end StdMapLemmas

/-! ## Lemmas on recording a point -/

theorem fillPoint_eq {R : Type} [One R] (g : TGPSDatum_GGA R) (d : TGPSGASDataPoint R) :
    fillPoint g d
      = ⟨g.longitude_degrees, g.latitude_degrees, g.altitude_meters, g.fix_quality, 1⟩ := rfl

section RecordLemmas

variable {R : Type} [Zero R] [One R]

theorem findPoint_recordPoint_self (label : String) (ts : TTimeStamp) (g : TGPSDatum_GGA R)
    (m : List (String × TDataPerGPSGAS R)) :
    findPoint label ts (recordPoint label ts g m)
      = some ⟨g.longitude_degrees, g.latitude_degrees, g.altitude_meters, g.fix_quality, 1⟩ := by
  unfold findPoint recordPoint
  obtain ⟨D, hD⟩ := mapFind_mapModify_self_exists (⟨[]⟩ : TDataPerGPSGAS R)
    (fun D => ⟨mapModify (⟨0, 0, 0, 0, 0⟩ : TGPSGASDataPoint R) (fillPoint g) ts D.path⟩) label m
  rw [hD]
  obtain ⟨d, hd⟩ := mapFind_mapModify_self_exists (⟨0, 0, 0, 0, 0⟩ : TGPSGASDataPoint R)
    (fillPoint g) ts D.path
  simp only [hd, fillPoint_eq]

theorem findPoint_recordPoint_other (label : String) (ts : TTimeStamp) (g : TGPSDatum_GGA R)
    (m : List (String × TDataPerGPSGAS R)) (hm : mapSorted m) (label' : String)
    (ts' : TTimeStamp) (hne : (label', ts') ≠ (label, ts)) :
    findPoint label' ts' (recordPoint label ts g m) = findPoint label' ts' m := by
  unfold findPoint recordPoint
  by_cases hl : label' = label
  · subst hl
    have hts : ts' ≠ ts := fun h => hne (by rw [h])
    rw [mapFind_mapModify_self _ _ _ _ hm]
    cases hfind : mapFind label' m with
    | none => simp [mapModify, mapFind, hts]
    | some D => simp [mapFind_mapModify_other _ _ hts]
  · rw [mapFind_mapModify_other _ _ hl]

theorem totalPoints_recordPoint_le (label : String) (ts : TTimeStamp) (g : TGPSDatum_GGA R)
    (m : List (String × TDataPerGPSGAS R)) :
    totalPoints (recordPoint label ts g m) ≤ totalPoints m + 1 := by
  unfold recordPoint
  induction m with
  | nil => simp [mapModify, totalPoints]
  | cons e rest ih =>
    obtain ⟨l', D⟩ := e
    simp only [mapModify]
    split_ifs with h1 h2
    · simp [totalPoints, mapModify]
      omega
    · have := length_mapModify_le (⟨0, 0, 0, 0, 0⟩ : TGPSGASDataPoint R) (fillPoint g) ts D.path
      simp only [totalPoints, List.map_cons, List.sum_cons] at *
      omega
    · simp only [totalPoints, List.map_cons, List.sum_cons] at *
      omega

theorem totalPoints_recordPoint_of_fresh (label : String) (ts : TTimeStamp)
    (g : TGPSDatum_GGA R) (m : List (String × TDataPerGPSGAS R))
    (hfresh : findPoint label ts m = none) :
    totalPoints (recordPoint label ts g m) = totalPoints m + 1 := by
  unfold recordPoint
  induction m with
  | nil => simp [mapModify, totalPoints]
  | cons e rest ih =>
    obtain ⟨l', D⟩ := e
    simp only [mapModify]
    split_ifs with h1 h2
    · simp [totalPoints, mapModify]
      omega
    · subst h2
      have hD : mapFind ts D.path = none := by
        simpa [findPoint, mapFind] using hfresh
      have := length_mapModify_of_not_found (⟨0, 0, 0, 0, 0⟩ : TGPSGASDataPoint R)
        (fillPoint g) ts D.path hD
      simp only [totalPoints, List.map_cons, List.sum_cons] at *
      omega
    · have hrest : findPoint label ts rest = none := by
        simpa [findPoint, mapFind, h2] using hfresh
      have := ih hrest
      simp only [totalPoints, List.map_cons, List.sum_cons] at *
      omega

theorem length_mapModify_of_found {K V : Type} [LinearOrder K] (dflt : V) (f : V → V) (k : K)
    (m : List (K × V)) (hm : mapSorted m) (h : mapFind k m ≠ none) :
    (mapModify dflt f k m).length = m.length := by
  induction m with
  | nil => exact absurd rfl h
  | cons e rest ih =>
    obtain ⟨k', v⟩ := e
    unfold mapSorted at hm ih
    rw [List.pairwise_cons] at hm
    simp only [mapModify]
    split_ifs with h1 h2
    · exfalso
      apply h
      exact mapFind_eq_none_of_lt k _ (by
        intro b hb
        rcases List.mem_cons.1 hb with hb | hb
        · subst hb
          exact h1
        · exact lt_trans h1 (hm.1 b hb))
    · simp
    · have hrest : mapFind k rest ≠ none := by
        simpa [mapFind, h2] using h
      simpa using ih hm.2 hrest

theorem totalPoints_recordPoint_of_present (label : String) (ts : TTimeStamp)
    (g : TGPSDatum_GGA R) (m : List (String × TDataPerGPSGAS R)) (hm : storeSorted m)
    (hold : findPoint label ts m ≠ none) :
    totalPoints (recordPoint label ts g m) = totalPoints m := by
  unfold recordPoint
  induction m with
  | nil => exact absurd rfl hold
  | cons e rest ih =>
    obtain ⟨l', D⟩ := e
    have hsorted := hm.1
    unfold mapSorted at hsorted
    rw [List.pairwise_cons] at hsorted
    simp only [mapModify]
    split_ifs with h1 h2
    · exfalso
      apply hold
      have hnone : mapFind label ((l', D) :: rest) = none :=
        mapFind_eq_none_of_lt label _ (by
          intro b hb
          rcases List.mem_cons.1 hb with hb | hb
          · subst hb
            exact h1
          · exact lt_trans h1 (hsorted.1 b hb))
      simp [findPoint, hnone]
    · subst h2
      have hD : mapFind ts D.path ≠ none := by
        simpa [findPoint, mapFind] using hold
      have := length_mapModify_of_found (⟨0, 0, 0, 0, 0⟩ : TGPSGASDataPoint R)
        (fillPoint g) ts D.path (hm.2 _ (List.mem_cons_self _ _)) hD
      simp only [totalPoints, List.map_cons, List.sum_cons] at *
      omega
    · have hrest : findPoint label ts rest ≠ none := by
        simpa [findPoint, mapFind, h2] using hold
      have := ih ⟨hsorted.2, fun e he => hm.2 e (List.mem_cons_of_mem _ he)⟩ hrest
      simp only [totalPoints, List.map_cons, List.sum_cons] at *
      omega

theorem storeSorted_recordPoint (label : String) (ts : TTimeStamp) (g : TGPSDatum_GGA R)
    (m : List (String × TDataPerGPSGAS R)) (hm : storeSorted m) :
    storeSorted (recordPoint label ts g m) := by
  refine ⟨mapSorted_mapModify _ _ _ _ hm.1, ?_⟩
  intro e he
  rcases mem_mapModify _ _ _ _ e he with h | ⟨_, h | ⟨D, hD, h⟩⟩
  · exact hm.2 e h
  · rw [h]
    exact mapSorted_mapModify _ _ _ _ List.Pairwise.nil
  · rw [h]
    exact mapSorted_mapModify _ _ _ _ (hm.2 _ hD)

end RecordLemmas

/-! ## The correlator -/

theorem FromValidFix_mono {R : Type} {seen seen' : List (CObservation R)} {label : String}
    {d : TGPSGASDataPoint R} (hsub : ∀ o ∈ seen, o ∈ seen') (h : FromValidFix seen label d) :
    FromValidFix seen' label d := by
  obtain ⟨g, hg, hrest⟩ := h
  exact ⟨g, hsub _ hg, hrest⟩

section Correlator

variable {R : Type} [Zero R] [One R]

theorem processOneObservation_valid_fix (s : ProcessorState R) (g : CObservationGPS R)
    (hgas : s.obsGas = none) (hvalid : g.has_GGA_datum = true) :
    processOneObservation s (.gps g) = (true, { s with obs := some g }) := by
  simp [processOneObservation, insertNewEntries, hgas, hvalid]

theorem processOneObservation_gas_after_fix (s : ProcessorState R) (g : CObservationGPS R)
    (a : CObservationGasSensors) (hobs : s.obs = some g) :
    processOneObservation s (.gas a)
      = (true, { m_gps_paths := recordPoint g.sensorLabel a.timestamp g.GGA_datum s.m_gps_paths
                 obs := none
                 obsGas := none }) := by
  simp [processOneObservation, insertNewEntries, hobs, CObservation.timestamp]

/-- C3 (correlation pairing). From a state with no gas observation pending
and a well-formed `m_gps_paths`, a GPS observation with `has_GGA_datum`
followed by a gas observation records exactly one point: the fix alone
stores nothing, and after the gas observation `m_gps_paths` is the old one
with a single `recordPoint`, so that the entry under the fix's sensor label
at the gas observation's timestamp holds the fix's longitude, latitude,
altitude and fix quality, every other entry reads as before, and the number
of stored points has grown by one when that key was new (as it is from the
initial state) and by none when an entry of that key was overwritten. -/
theorem C3_correlation_pairing (s : ProcessorState R) (g : CObservationGPS R)
    (a : CObservationGasSensors) (hwf : storeSorted s.m_gps_paths)
    (hgas : s.obsGas = none) (hvalid : g.has_GGA_datum = true) :
    (processOneObservation s (.gps g)).2.m_gps_paths = s.m_gps_paths ∧
    (processOneObservation (processOneObservation s (.gps g)).2 (.gas a)).2.m_gps_paths
      = recordPoint g.sensorLabel a.timestamp g.GGA_datum s.m_gps_paths ∧
    findPoint g.sensorLabel a.timestamp
        (processOneObservation (processOneObservation s (.gps g)).2 (.gas a)).2.m_gps_paths
      = some ⟨g.GGA_datum.longitude_degrees, g.GGA_datum.latitude_degrees,
              g.GGA_datum.altitude_meters, g.GGA_datum.fix_quality, 1⟩ ∧
    (∀ label ts, (label, ts) ≠ (g.sensorLabel, a.timestamp) →
      findPoint label ts
          (processOneObservation (processOneObservation s (.gps g)).2 (.gas a)).2.m_gps_paths
        = findPoint label ts s.m_gps_paths) ∧
    (findPoint g.sensorLabel a.timestamp s.m_gps_paths = none →
      totalPoints
          (processOneObservation (processOneObservation s (.gps g)).2 (.gas a)).2.m_gps_paths
        = totalPoints s.m_gps_paths + 1) ∧
    (findPoint g.sensorLabel a.timestamp s.m_gps_paths ≠ none →
      totalPoints
          (processOneObservation (processOneObservation s (.gps g)).2 (.gas a)).2.m_gps_paths
        = totalPoints s.m_gps_paths) := by
  rw [processOneObservation_valid_fix s g hgas hvalid]
  rw [processOneObservation_gas_after_fix _ g a rfl]
  refine ⟨rfl, rfl, findPoint_recordPoint_self _ _ _ _, ?_, ?_, ?_⟩
  · intro label ts hne
    exact findPoint_recordPoint_other _ _ _ _ hwf.1 label ts hne
  · intro hfresh
    exact totalPoints_recordPoint_of_fresh _ _ _ _ hfresh
  · intro hold
    exact totalPoints_recordPoint_of_present _ _ _ _ hwf hold

/-- C3, at a concrete input: a store that already holds a point under GPS1,
no observation pending, then a valid fix of GPS1 and a gas observation. -/
theorem C3_correlation_pairing_witness :
    findPoint "GPS1" 7
        (processOneObservation
          (processOneObservation
            ({ m_gps_paths := [("GPS1", ⟨[(5, ⟨1, 2, 3, 1, 1⟩)]⟩)], obs := none, obsGas := none } :
              ProcessorState ℚ)
            (.gps ⟨"GPS1", 6, true, ⟨10, 20, 30, 4⟩⟩)).2
          (.gas ⟨"GAS", 7⟩)).2.m_gps_paths
      = some ⟨10, 20, 30, 4, 1⟩ :=
  (C3_correlation_pairing
    ({ m_gps_paths := [("GPS1", ⟨[(5, ⟨1, 2, 3, 1, 1⟩)]⟩)], obs := none, obsGas := none } :
      ProcessorState ℚ)
    ⟨"GPS1", 6, true, ⟨10, 20, 30, 4⟩⟩ ⟨"GAS", 7⟩
    (by simp [storeSorted, mapSorted]) rfl rfl).2.2.1

/-- C4 (invalid-fix suppression). From every state, a GPS observation
without GGA datum clears the pending fix (and stores nothing), and a gas
observation processed next stores nothing either: `m_gps_paths` is
unchanged. -/
theorem C4_invalid_fix_suppression (s : ProcessorState R) (g : CObservationGPS R)
    (a : CObservationGasSensors) (hinvalid : g.has_GGA_datum = false) :
    (processOneObservation s (.gps g)).2.obs = none ∧
    (processOneObservation s (.gps g)).2.m_gps_paths = s.m_gps_paths ∧
    (processOneObservation (processOneObservation s (.gps g)).2 (.gas a)).2.m_gps_paths
      = s.m_gps_paths := by
  simp [processOneObservation, insertNewEntries, hinvalid]

/-- C4, at a concrete input: a valid fix and a gas observation are both
pending when the invalid fix arrives. -/
theorem C4_invalid_fix_suppression_witness :
    (processOneObservation
      (processOneObservation
        ({ m_gps_paths := [("GPS1", ⟨[(5, ⟨1, 2, 3, 1, 1⟩)]⟩)],
           obs := some ⟨"GPS1", 4, true, ⟨1, 2, 3, 4⟩⟩,
           obsGas := some ⟨"GAS", 3⟩ } : ProcessorState ℚ)
        (.gps ⟨"GPS1", 6, false, ⟨10, 20, 30, 4⟩⟩)).2
      (.gas ⟨"GAS", 7⟩)).2.m_gps_paths
      = [("GPS1", ⟨[(5, ⟨1, 2, 3, 1, 1⟩)]⟩)] :=
  (C4_invalid_fix_suppression
    ({ m_gps_paths := [("GPS1", ⟨[(5, ⟨1, 2, 3, 1, 1⟩)]⟩)],
       obs := some ⟨"GPS1", 4, true, ⟨1, 2, 3, 4⟩⟩,
       obsGas := some ⟨"GAS", 3⟩ } : ProcessorState ℚ)
    ⟨"GPS1", 6, false, ⟨10, 20, 30, 4⟩⟩ ⟨"GAS", 7⟩ rfl).2.2

/-- C7 (scenario C). From the initial state, a valid fix labelled GPS1, a
gas observation and a valid fix labelled GPS2 leave exactly one stored
point: `m_gps_paths` has the single label GPS1, whose path has the single
entry at the gas observation's timestamp with the values of the first fix,
and there is no entry for GPS2. -/
theorem C7_scenario_C (t1 t3 : TTimeStamp) (d1 d2 : TGPSDatum_GGA R)
    (a : CObservationGasSensors) :
    (replay (ProcessorState.initial R)
        [.gps ⟨"GPS1", t1, true, d1⟩, .gas a, .gps ⟨"GPS2", t3, true, d2⟩]).m_gps_paths
      = [("GPS1", ⟨[(a.timestamp, ⟨d1.longitude_degrees, d1.latitude_degrees,
                      d1.altitude_meters, d1.fix_quality, 1⟩)]⟩)] ∧
    totalPoints (replay (ProcessorState.initial R)
        [.gps ⟨"GPS1", t1, true, d1⟩, .gas a, .gps ⟨"GPS2", t3, true, d2⟩]).m_gps_paths = 1 ∧
    mapFind "GPS2" (replay (ProcessorState.initial R)
        [.gps ⟨"GPS1", t1, true, d1⟩, .gas a, .gps ⟨"GPS2", t3, true, d2⟩]).m_gps_paths
      = none := by
  have h : (replay (ProcessorState.initial R)
        [.gps ⟨"GPS1", t1, true, d1⟩, .gas a, .gps ⟨"GPS2", t3, true, d2⟩]).m_gps_paths
      = [("GPS1", ⟨[(a.timestamp, ⟨d1.longitude_degrees, d1.latitude_degrees,
                      d1.altitude_meters, d1.fix_quality, 1⟩)]⟩)] := by
    simp [replay, processOneObservation, insertNewEntries, ProcessorState.initial,
      recordPoint, mapModify, fillPoint, CObservation.timestamp]
  rw [h]
  refine ⟨rfl, by simp [totalPoints], ?_⟩
  simp [mapFind]

theorem mem_recordPoint (label : String) (ts : TTimeStamp) (g : TGPSDatum_GGA R)
    (m : List (String × TDataPerGPSGAS R)) (e : String × TDataPerGPSGAS R)
    (p : TTimeStamp × TGPSGASDataPoint R) (he : e ∈ recordPoint label ts g m)
    (hp : p ∈ e.2.path) :
    (∃ e' ∈ m, e'.1 = e.1 ∧ p ∈ e'.2.path) ∨
    (e.1 = label ∧ p.1 = ts ∧
      p.2 = ⟨g.longitude_degrees, g.latitude_degrees, g.altitude_meters, g.fix_quality, 1⟩) := by
  have inner : ∀ path : List (TTimeStamp × TGPSGASDataPoint R),
      p ∈ mapModify (⟨0, 0, 0, 0, 0⟩ : TGPSGASDataPoint R) (fillPoint g) ts path →
      p ∈ path ∨ (p.1 = ts ∧
        p.2 = ⟨g.longitude_degrees, g.latitude_degrees, g.altitude_meters,
               g.fix_quality, 1⟩) := by
    intro path hmem
    rcases mem_mapModify _ _ _ _ p hmem with h | ⟨hk, h | ⟨v, _, h⟩⟩
    · exact Or.inl h
    · exact Or.inr ⟨hk, by rw [h, fillPoint_eq]⟩
    · exact Or.inr ⟨hk, by rw [h, fillPoint_eq]⟩
  unfold recordPoint at he
  rcases mem_mapModify _ _ _ _ e he with h | ⟨hk, h | ⟨D, hD, h⟩⟩
  · exact Or.inl ⟨e, h, rfl, hp⟩
  · rw [h] at hp
    rcases inner _ hp with h' | h'
    · exact absurd h' (List.not_mem_nil _)
    · exact Or.inr ⟨hk, h'⟩
  · rw [h] at hp
    rcases inner _ hp with h' | h'
    · exact Or.inl ⟨(label, D), hD, hk.symm, h'⟩
    · exact Or.inr ⟨hk, h'⟩

theorem ProvenanceInv_insertNewEntries (seen : List (CObservation R)) (ts : TTimeStamp)
    (s : ProcessorState R) (h : ProvenanceInv seen s) :
    ProvenanceInv seen (insertNewEntries ts s).2 := by
  unfold insertNewEntries
  split
  · rename_i g a hobs hgas
    obtain ⟨hg, hvalid⟩ := h.1 g hobs
    refine ⟨fun g' hg' => by simp at hg', ?_⟩
    intro e he p hp
    rcases mem_recordPoint _ _ _ _ e p he hp with ⟨e', he', hlabel, hp'⟩ | ⟨hlabel, _, hval⟩
    · rw [← hlabel]
      exact h.2 e' he' p hp'
    · refine ⟨g, hg, hvalid, hlabel.symm, ?_⟩
      rw [hval]
      exact ⟨rfl, rfl, rfl, rfl⟩
  · exact h

theorem ProvenanceInv_step (seen : List (CObservation R)) (s : ProcessorState R)
    (o : CObservation R) (h : ProvenanceInv seen s) :
    ProvenanceInv (seen ++ [o]) (processOneObservation s o).2 := by
  have hsub : ∀ x ∈ seen, x ∈ seen ++ [o] := fun x hx => List.mem_append_left _ hx
  have hmono : ProvenanceInv (seen ++ [o]) s :=
    ⟨fun g hg => ⟨hsub _ (h.1 g hg).1, (h.1 g hg).2⟩,
     fun e he p hp => FromValidFix_mono hsub (h.2 e he p hp)⟩
  cases o with
  | gps g =>
    simp only [processOneObservation]
    split_ifs with hv
    · exact ⟨fun g' hg' => by simp at hg', hmono.2⟩
    · apply ProvenanceInv_insertNewEntries
      refine ⟨?_, hmono.2⟩
      intro g' hg'
      simp only [Option.some.injEq] at hg'
      subst hg'
      refine ⟨by simp, ?_⟩
      simpa using hv
  | gas a =>
    simp only [processOneObservation]
    apply ProvenanceInv_insertNewEntries
    exact ⟨hmono.1, hmono.2⟩
  | other t => exact hmono

theorem ProvenanceInv_replay (rest : List (CObservation R)) :
    ∀ (seen : List (CObservation R)) (s : ProcessorState R), ProvenanceInv seen s →
      ProvenanceInv (seen ++ rest) (replay s rest) := by
  induction rest with
  | nil =>
    intro seen s h
    simpa [replay] using h
  | cons o rest ih =>
    intro seen s h
    have := ih (seen ++ [o]) (processOneObservation s o).2 (ProvenanceInv_step seen s o h)
    simpa [replay] using this

/-- C8 (valid-fix provenance). For every stream replayed from the initial
state, every point stored in `m_gps_paths` under a label has the longitude,
latitude, altitude and fix quality of some GPS observation of the stream
that has a GGA datum and carries that sensor label. -/
theorem C8_valid_fix_provenance (stream : List (CObservation R))
    (e : String × TDataPerGPSGAS R) (p : TTimeStamp × TGPSGASDataPoint R)
    (he : e ∈ (replay (ProcessorState.initial R) stream).m_gps_paths) (hp : p ∈ e.2.path) :
    ∃ g : CObservationGPS R, CObservation.gps g ∈ stream ∧ g.has_GGA_datum = true ∧
      g.sensorLabel = e.1 ∧
      p.2.lon = g.GGA_datum.longitude_degrees ∧ p.2.lat = g.GGA_datum.latitude_degrees ∧
      p.2.alt = g.GGA_datum.altitude_meters ∧ p.2.fix = g.GGA_datum.fix_quality := by
  have hinit : ProvenanceInv ([] : List (CObservation R)) (ProcessorState.initial R) :=
    ⟨fun g hg => by simp [ProcessorState.initial] at hg,
     fun e he => by simp [ProcessorState.initial] at he⟩
  have := ProvenanceInv_replay stream [] _ hinit
  rw [List.nil_append] at this
  exact this.2 e he p hp

/-- C8, at a concrete stream: an invalid fix, a gas observation, a valid
fix and a second gas observation; the stored point comes from the valid
fix. -/
theorem C8_valid_fix_provenance_witness :
    ∃ g : CObservationGPS ℚ,
      CObservation.gps g ∈
        ([.gps ⟨"GPS1", 1, false, ⟨9, 9, 9, 1⟩⟩, .gas ⟨"GAS", 2⟩,
          .gps ⟨"GPS1", 3, true, ⟨10, 20, 30, 4⟩⟩, .gas ⟨"GAS", 4⟩] : List (CObservation ℚ)) ∧
      g.has_GGA_datum = true ∧ g.sensorLabel = "GPS1" ∧
      (10 : ℚ) = g.GGA_datum.longitude_degrees ∧ (20 : ℚ) = g.GGA_datum.latitude_degrees ∧
      (30 : ℚ) = g.GGA_datum.altitude_meters ∧ 4 = g.GGA_datum.fix_quality :=
  C8_valid_fix_provenance
    [.gps ⟨"GPS1", 1, false, ⟨9, 9, 9, 1⟩⟩, .gas ⟨"GAS", 2⟩,
      .gps ⟨"GPS1", 3, true, ⟨10, 20, 30, 4⟩⟩, .gas ⟨"GAS", 4⟩]
    ("GPS1", ⟨[(3, ⟨10, 20, 30, 4, 1⟩)]⟩) (3, ⟨10, 20, 30, 4, 1⟩)
    (by simp [replay, processOneObservation, insertNewEntries, ProcessorState.initial,
          recordPoint, mapModify, fillPoint, CObservation.timestamp])
    (by simp)

/-- C5 (last write wins). On a well-formed `m_gps_paths`, after two points
are recorded for the same sensor label and timestamp, the label has exactly
one entry, its path has exactly one entry for that timestamp, and that entry
holds the longitude, latitude, altitude and fix quality of the second point;
every entry at another timestamp or under another label reads as it did
before the two recordings, and as it did between them. -/
theorem C5_last_write_wins (m : List (String × TDataPerGPSGAS R)) (hm : storeSorted m)
    (label : String) (ts : TTimeStamp) (g1 g2 : TGPSDatum_GGA R) :
    (((recordPoint label ts g2 (recordPoint label ts g1 m)).map Prod.fst).count label = 1 ∧
      ∃ D, mapFind label (recordPoint label ts g2 (recordPoint label ts g1 m)) = some D ∧
        (D.path.map Prod.fst).count ts = 1 ∧
        mapFind ts D.path
          = some ⟨g2.longitude_degrees, g2.latitude_degrees, g2.altitude_meters,
                  g2.fix_quality, 1⟩) ∧
    (∀ label' ts', (label', ts') ≠ (label, ts) →
      findPoint label' ts' (recordPoint label ts g2 (recordPoint label ts g1 m))
        = findPoint label' ts' m ∧
      findPoint label' ts' (recordPoint label ts g2 (recordPoint label ts g1 m))
        = findPoint label' ts' (recordPoint label ts g1 m)) := by
  have hm1 : storeSorted (recordPoint label ts g1 m) := storeSorted_recordPoint _ _ _ _ hm
  refine ⟨⟨count_key_mapModify _ _ _ _ hm1.1, ?_⟩, ?_⟩
  · have hfind := mapFind_mapModify_self (⟨[]⟩ : TDataPerGPSGAS R)
      (fun D => ⟨mapModify (⟨0, 0, 0, 0, 0⟩ : TGPSGASDataPoint R) (fillPoint g2) ts D.path⟩)
      label (recordPoint label ts g1 m) hm1.1
    refine ⟨_, hfind, ?_, ?_⟩
    · apply count_key_mapModify
      cases hold : mapFind label (recordPoint label ts g1 m) with
      | none => exact List.Pairwise.nil
      | some D0 => exact hm1.2 _ (mapFind_some_mem _ _ _ hold)
    · obtain ⟨d, hd⟩ := mapFind_mapModify_self_exists (⟨0, 0, 0, 0, 0⟩ : TGPSGASDataPoint R)
        (fillPoint g2) ts ((mapFind label (recordPoint label ts g1 m)).getD ⟨[]⟩).path
      rw [hd, fillPoint_eq]
  · intro label' ts' hne
    have h2 := findPoint_recordPoint_other label ts g2 _ hm1.1 label' ts' hne
    have h1 := findPoint_recordPoint_other label ts g1 _ hm.1 label' ts' hne
    exact ⟨h2.trans h1, h2⟩

/-- C5, at a concrete input: a store with two timestamps under GPS1, the
later one recorded twice more. -/
theorem C5_last_write_wins_witness :
    findPoint "GPS1" 7
        (recordPoint "GPS1" 7 (⟨50, 60, 70, 4⟩ : TGPSDatum_GGA ℚ)
          (recordPoint "GPS1" 7 ⟨10, 20, 30, 2⟩
            [("GPS1", ⟨[(5, ⟨1, 2, 3, 1, 1⟩), (7, ⟨4, 5, 6, 1, 1⟩)]⟩)]))
      = some ⟨50, 60, 70, 4, 1⟩ ∧
    findPoint "GPS1" 5
        (recordPoint "GPS1" 7 (⟨50, 60, 70, 4⟩ : TGPSDatum_GGA ℚ)
          (recordPoint "GPS1" 7 ⟨10, 20, 30, 2⟩
            [("GPS1", ⟨[(5, ⟨1, 2, 3, 1, 1⟩), (7, ⟨4, 5, 6, 1, 1⟩)]⟩)]))
      = some ⟨1, 2, 3, 1, 1⟩ :=
  ⟨findPoint_recordPoint_self _ _ _ _,
   ((C5_last_write_wins [("GPS1", ⟨[(5, ⟨1, 2, 3, 1, 1⟩), (7, ⟨4, 5, 6, 1, 1⟩)]⟩)]
      (by simp [storeSorted, mapSorted]) "GPS1" 7 ⟨10, 20, 30, 2⟩ ⟨50, 60, 70, 4⟩).2
      "GPS1" 5 (by simp)).1.trans (by simp [findPoint, mapFind])⟩

end Correlator

/-! ## The KML writer -/

theorem allPointsLoop_fst {R : Type} (label : String)
    (path : List (TTimeStamp × TGPSGASDataPoint R)) :
    ∀ b : Bool, (allPointsLoop label b path).1 = (b || path.any (fun e => e.2.fix == 4)) := by
  induction path with
  | nil => intro b; simp [allPointsLoop]
  | cons e rest ih =>
    intro b
    obtain ⟨t, d⟩ := e
    simp only [allPointsLoop, ih, List.any_cons]
    cases b <;> cases h : (d.fix == 4) <;> simp

theorem hasSomeRTK_eq_any {R : Type} (label : String)
    (path : List (TTimeStamp × TGPSGASDataPoint R)) :
    hasSomeRTK label path = path.any (fun e => e.2.fix == 4) := by
  simp [hasSomeRTK, allPointsLoop_fst]

theorem rtkPoints_cons {R : Type} (t : TTimeStamp) (d : TGPSGASDataPoint R)
    (rest : List (TTimeStamp × TGPSGASDataPoint R)) :
    rtkPoints ((t, d) :: rest)
      = if d.fix = 4 then (d.lon, d.lat) :: rtkPoints rest else rtkPoints rest := by
  unfold rtkPoints
  by_cases h : d.fix = 4 <;> simp [List.filter_cons, h]

section SegmenterLemmas

variable {R : Type} [LinearOrderedField R]

theorem lineStrings_rtkLoop (hypot : R → R → R) (DEG2RAD : R → R) (MIN_DIST_TO_SPLIT : R)
    (path : List (TTimeStamp × TGPSGASDataPoint R)) :
    ∀ (last_valid : TGPSGASDataPoint R) (cur : List (R × R)),
      lineStrings
          (rtkLoop hypot DEG2RAD MIN_DIST_TO_SPLIT last_valid path
            ++ [KmlItem.LineString_END, KmlItem.multiGeometryEnd, KmlItem.placemarkEnd])
          (some cur)
        = rtkSegments hypot DEG2RAD MIN_DIST_TO_SPLIT last_valid cur path := by
  induction path with
  | nil =>
    intro last_valid cur
    simp [rtkLoop, rtkSegments, lineStrings]
  | cons e rest ih =>
    intro last_valid cur
    obtain ⟨t, d⟩ := e
    simp only [rtkLoop, rtkSegments]
    split_ifs with h1 h2 h3
    · exact ih _ _
    · simp [lineStrings, printCoordinates, save_altitude, ih]
    · simp [lineStrings, printCoordinates, save_altitude, ih]
    · simp [ih]

theorem exportLabel_eq (hypot : R → R → R) (DEG2RAD : R → R) (MIN_DIST_TO_SPLIT : R)
    (label : String) (D : TDataPerGPSGAS R) :
    exportLabel hypot DEG2RAD MIN_DIST_TO_SPLIT label D
      = (KmlItem.folderHeader label :: (allPointsLoop label false D.path).2
          ++ [KmlItem.LineString_END, KmlItem.placemarkEnd])
        ++ rtkOnlyBlock hypot DEG2RAD MIN_DIST_TO_SPLIT (hasSomeRTK label D.path) label
            D.path := rfl

theorem segmentation_eq (hypot : R → R → R) (DEG2RAD : R → R) (MIN_DIST_TO_SPLIT : R)
    (label : String) (path : List (TTimeStamp × TGPSGASDataPoint R)) :
    segmentation hypot DEG2RAD MIN_DIST_TO_SPLIT label path
      = if path.any (fun e => e.2.fix == 4) then
          rtkSegments hypot DEG2RAD MIN_DIST_TO_SPLIT last_valid_init [] path
        else [] := by
  unfold segmentation rtkOnlyBlock
  rw [hasSomeRTK_eq_any]
  split_ifs with h
  · simp only [List.cons_append, List.nil_append, List.append_assoc, lineStrings]
    exact lineStrings_rtkLoop _ _ _ _ _ _
  · rfl

/-- C10 (scenario B). For a path without any point of fix quality 4, the
flag `hasSomeRTK` is false, the RTK-only block prints nothing, and the
segmentation is empty. -/
theorem C10_no_rtk_points (hypot : R → R → R) (DEG2RAD : R → R) (MIN_DIST_TO_SPLIT : R)
    (label : String) (path : List (TTimeStamp × TGPSGASDataPoint R))
    (hno : ∀ e ∈ path, e.2.fix ≠ 4) :
    hasSomeRTK label path = false ∧
    rtkOnlyBlock hypot DEG2RAD MIN_DIST_TO_SPLIT (hasSomeRTK label path) label path = [] ∧
    segmentation hypot DEG2RAD MIN_DIST_TO_SPLIT label path = [] := by
  have hflag : hasSomeRTK label path = false := by
    rw [hasSomeRTK_eq_any, List.any_eq_false]
    intro e he
    simpa using hno e he
  refine ⟨hflag, ?_, ?_⟩
  · simp [rtkOnlyBlock, hflag]
  · simp [segmentation, rtkOnlyBlock, hflag, lineStrings]

/-- C10, at a concrete path: a standalone fix and an RTK-float fix. -/
theorem C10_no_rtk_points_witness :
    hasSomeRTK "GPS1"
        ([(1, ⟨1, 2, 3, 1, 1⟩), (2, ⟨4, 5, 6, 5, 1⟩)] : List (TTimeStamp × TGPSGASDataPoint ℝ))
      = false ∧
    segmentation hypotReal DEG2RADReal 20 "GPS1"
        [(1, ⟨1, 2, 3, 1, 1⟩), (2, ⟨4, 5, 6, 5, 1⟩)] = [] :=
  ⟨(C10_no_rtk_points hypotReal DEG2RADReal 20 "GPS1"
      [(1, ⟨1, 2, 3, 1, 1⟩), (2, ⟨4, 5, 6, 5, 1⟩)] (by simp)).1,
   (C10_no_rtk_points hypotReal DEG2RADReal 20 "GPS1"
      [(1, ⟨1, 2, 3, 1, 1⟩), (2, ⟨4, 5, 6, 5, 1⟩)] (by simp)).2.2⟩

theorem rtkSegments_flatten_sublist (hypot : R → R → R) (DEG2RAD : R → R)
    (MIN_DIST_TO_SPLIT : R) (path : List (TTimeStamp × TGPSGASDataPoint R)) :
    ∀ (last_valid : TGPSGASDataPoint R) (cur : List (R × R)),
      (rtkSegments hypot DEG2RAD MIN_DIST_TO_SPLIT last_valid cur path).flatten.Sublist
        (cur ++ rtkPoints path) := by
  induction path with
  | nil =>
    intro last_valid cur
    simp [rtkSegments, rtkPoints]
  | cons e rest ih =>
    intro last_valid cur
    obtain ⟨t, d⟩ := e
    simp only [rtkSegments, rtkPoints_cons]
    by_cases h4 : d.fix = 4
    · rw [if_neg (not_not.2 h4), if_pos h4]
      split_ifs with h2 h3
      · simpa using (ih d [(d.lon, d.lat)]).append_left cur
      · simpa using ih d (cur ++ [(d.lon, d.lat)])
      · exact (ih d cur).trans ((List.sublist_cons_self _ _).append_left cur)
    · rw [if_pos h4, if_neg h4]
      exact ih _ _

theorem rtkSegments_flatten_length_lt (hypot : R → R → R) (DEG2RAD : R → R)
    (MIN_DIST_TO_SPLIT : R) (path : List (TTimeStamp × TGPSGASDataPoint R)) :
    ∀ (last_valid : TGPSGASDataPoint R) (cur : List (R × R)),
      ¬ (last_valid.lat ≠ 0 ∧ last_valid.lon ≠ 0) → (∃ e ∈ path, e.2.fix = 4) →
      (rtkSegments hypot DEG2RAD MIN_DIST_TO_SPLIT last_valid cur path).flatten.length
        < cur.length + (rtkPoints path).length := by
  induction path with
  | nil =>
    intro last_valid cur _ hex
    obtain ⟨e, he, _⟩ := hex
    exact absurd he (List.not_mem_nil _)
  | cons e rest ih =>
    intro last_valid cur hlv hex
    obtain ⟨t, d⟩ := e
    simp only [rtkSegments, rtkPoints_cons]
    by_cases h4 : d.fix = 4
    · rw [if_neg (not_not.2 h4), if_neg hlv, if_pos h4]
      have := (rtkSegments_flatten_sublist hypot DEG2RAD MIN_DIST_TO_SPLIT rest d cur).length_le
      simp only [List.length_append, List.length_cons] at this ⊢
      omega
    · rw [if_pos h4, if_neg h4]
      apply ih last_valid cur hlv
      obtain ⟨e, he, hfix⟩ := hex
      rcases List.mem_cons.1 he with h | h
      · subst h
        exact absurd hfix h4
      · exact ⟨e, h, hfix⟩

/-- C1 (coverage), what the code does instead: for every path with at least
one point of fix quality 4, the points of the segments, concatenated in
order, form a subsequence of the quality-4 points that is strictly shorter
than it: at least one quality-4 point (the first) is dropped. -/
theorem C1_coverage_drops_a_point (hypot : R → R → R) (DEG2RAD : R → R)
    (MIN_DIST_TO_SPLIT : R) (label : String) (path : List (TTimeStamp × TGPSGASDataPoint R))
    (hex : ∃ e ∈ path, e.2.fix = 4) :
    (segmentation hypot DEG2RAD MIN_DIST_TO_SPLIT label path).flatten.Sublist (rtkPoints path) ∧
    (segmentation hypot DEG2RAD MIN_DIST_TO_SPLIT label path).flatten.length
      < (rtkPoints path).length ∧
    (segmentation hypot DEG2RAD MIN_DIST_TO_SPLIT label path).flatten ≠ rtkPoints path := by
  have hany : path.any (fun e => e.2.fix == 4) = true := by
    rw [List.any_eq_true]
    obtain ⟨e, he, hfix⟩ := hex
    exact ⟨e, he, by simpa using hfix⟩
  rw [segmentation_eq, if_pos hany]
  have hsub := rtkSegments_flatten_sublist hypot DEG2RAD MIN_DIST_TO_SPLIT path
    last_valid_init []
  have hlt := rtkSegments_flatten_length_lt hypot DEG2RAD MIN_DIST_TO_SPLIT path
    last_valid_init [] (by simp [last_valid_init]) hex
  simp only [List.nil_append, List.length_nil, Nat.zero_add] at hsub hlt
  refine ⟨hsub, hlt, ?_⟩
  intro heq
  rw [heq] at hlt
  exact lt_irrefl _ hlt

/-- C1, at the failing input: a path of two quality-4 points; the first is
not written. -/
theorem C1_coverage_drops_a_point_witness :
    (segmentation hypotReal DEG2RADReal 20 "GPS1"
        [(1, ⟨1, 1, 0, 4, 1⟩), (2, ⟨2, 2, 0, 4, 1⟩)]).flatten
      ≠ rtkPoints ([(1, ⟨1, 1, 0, 4, 1⟩), (2, ⟨2, 2, 0, 4, 1⟩)] :
          List (TTimeStamp × TGPSGASDataPoint ℝ)) :=
  (C1_coverage_drops_a_point hypotReal DEG2RADReal 20 "GPS1"
    [(1, ⟨1, 1, 0, 4, 1⟩), (2, ⟨2, 2, 0, 4, 1⟩)] ⟨(1, ⟨1, 1, 0, 4, 1⟩), by simp, rfl⟩).2.2

theorem rtkSegments_of_no_rtk (hypot : R → R → R) (DEG2RAD : R → R)
    (MIN_DIST_TO_SPLIT : R) (path : List (TTimeStamp × TGPSGASDataPoint R))
    (last_valid : TGPSGASDataPoint R) (cur : List (R × R)) (hno : rtkPoints path = []) :
    rtkSegments hypot DEG2RAD MIN_DIST_TO_SPLIT last_valid cur path = [cur] := by
  induction path with
  | nil => rfl
  | cons e rest ih =>
    obtain ⟨t, d⟩ := e
    rw [rtkPoints_cons] at hno
    split_ifs at hno with h4
    simp only [rtkSegments]
    rw [if_pos h4]
    exact ih hno

theorem rtkSegments_of_single_rtk (hypot : R → R → R) (DEG2RAD : R → R)
    (MIN_DIST_TO_SPLIT : R) (path : List (TTimeStamp × TGPSGASDataPoint R))
    (last_valid : TGPSGASDataPoint R) (cur : List (R × R))
    (hlv : ¬ (last_valid.lat ≠ 0 ∧ last_valid.lon ≠ 0)) (hone : (rtkPoints path).length = 1) :
    rtkSegments hypot DEG2RAD MIN_DIST_TO_SPLIT last_valid cur path = [cur] := by
  induction path with
  | nil => simp [rtkPoints] at hone
  | cons e rest ih =>
    obtain ⟨t, d⟩ := e
    rw [rtkPoints_cons] at hone
    simp only [rtkSegments]
    by_cases h4 : d.fix = 4
    · rw [if_pos h4] at hone
      rw [if_neg (not_not.2 h4), if_neg hlv]
      apply rtkSegments_of_no_rtk
      simpa using hone
    · rw [if_neg h4] at hone
      rw [if_pos h4]
      exact ih hone

/-- C9 (single qualifying point), what the code does instead: for every
path with exactly one point of fix quality 4, the segmentation is one
segment of length 0: the RTK-only block is printed, and its only line string
has no coordinate line. -/
theorem C9_single_rtk_point_not_written (hypot : R → R → R) (DEG2RAD : R → R)
    (MIN_DIST_TO_SPLIT : R) (label : String) (path : List (TTimeStamp × TGPSGASDataPoint R))
    (hone : (rtkPoints path).length = 1) :
    hasSomeRTK label path = true ∧
    segmentation hypot DEG2RAD MIN_DIST_TO_SPLIT label path = [[]] := by
  have hany : path.any (fun e => e.2.fix == 4) = true := by
    by_contra hnot
    have hnone : rtkPoints path = [] := by
      unfold rtkPoints
      rw [List.map_eq_nil_iff, List.filter_eq_nil_iff]
      intro e he hfix
      exact hnot (List.any_eq_true.2 ⟨e, he, hfix⟩)
    rw [hnone] at hone
    exact absurd hone (by simp)
  refine ⟨by rw [hasSomeRTK_eq_any, hany], ?_⟩
  rw [segmentation_eq, if_pos hany]
  exact rtkSegments_of_single_rtk _ _ _ _ _ _ (by simp [last_valid_init]) hone

/-- C9, at the failing input: one RTK-fixed point between a standalone fix
and an RTK-float fix. -/
theorem C9_single_rtk_point_not_written_witness :
    segmentation hypotReal DEG2RADReal 20 "GPS1"
        [(1, ⟨7, 8, 0, 1, 1⟩), (2, ⟨2, 3, 0, 4, 1⟩), (3, ⟨9, 9, 0, 5, 1⟩)] = [[]] ∧
    rtkPoints ([(1, ⟨7, 8, 0, 1, 1⟩), (2, ⟨2, 3, 0, 4, 1⟩), (3, ⟨9, 9, 0, 5, 1⟩)] :
        List (TTimeStamp × TGPSGASDataPoint ℝ)) = [(2, 3)] :=
  ⟨(C9_single_rtk_point_not_written hypotReal DEG2RADReal 20 "GPS1"
      [(1, ⟨7, 8, 0, 1, 1⟩), (2, ⟨2, 3, 0, 4, 1⟩), (3, ⟨9, 9, 0, 5, 1⟩)]
      (by simp [rtkPoints])).2,
   by simp [rtkPoints]⟩

/-- C6 (scenario A), what the code does instead: for the path of scenario A
and a threshold of 100 m, whatever the timestamps, altitudes and colours,
the three points are the quality-4 points of the path, yet the RTK-only
block is printed with a single line string that holds no point: none of the
three points is written and no boundary is placed, so the segmentation is
not the two segments of the scenario. -/
theorem C6_scenario_A_nothing_written (hypot : R → R → R) (DEG2RAD : R → R) (label : String)
    (t1 t2 t3 : TTimeStamp) (alt1 alt2 alt3 color1 color2 color3 : R) :
    rtkPoints [(t1, ⟨0, 0, alt1, 4, color1⟩), (t2, ⟨0, 1 / 10000, alt2, 4, color2⟩),
        (t3, (⟨5, 5, alt3, 4, color3⟩ : TGPSGASDataPoint R))]
      = [(0, 0), (0, 1 / 10000), (5, 5)] ∧
    hasSomeRTK label [(t1, ⟨0, 0, alt1, 4, color1⟩), (t2, ⟨0, 1 / 10000, alt2, 4, color2⟩),
        (t3, (⟨5, 5, alt3, 4, color3⟩ : TGPSGASDataPoint R))] = true ∧
    segmentation hypot DEG2RAD 100 label
        [(t1, ⟨0, 0, alt1, 4, color1⟩), (t2, ⟨0, 1 / 10000, alt2, 4, color2⟩),
         (t3, ⟨5, 5, alt3, 4, color3⟩)]
      = [[]] ∧
    segmentation hypot DEG2RAD 100 label
        [(t1, ⟨0, 0, alt1, 4, color1⟩), (t2, ⟨0, 1 / 10000, alt2, 4, color2⟩),
         (t3, ⟨5, 5, alt3, 4, color3⟩)]
      ≠ [[(0, 0), (0, 1 / 10000)], [(5, 5)]] := by
  have hseg : segmentation hypot DEG2RAD 100 label
        [(t1, ⟨0, 0, alt1, 4, color1⟩), (t2, ⟨0, 1 / 10000, alt2, 4, color2⟩),
         (t3, ⟨5, 5, alt3, 4, color3⟩)]
      = [[]] := by
    rw [segmentation_eq]
    simp [rtkSegments, last_valid_init]
  refine ⟨by simp [rtkPoints], by simp [hasSomeRTK_eq_any], hseg, ?_⟩
  rw [hseg]
  simp

theorem rtkSegments_guarded_maximal (hypot : R → R → R) (DEG2RAD : R → R)
    (MIN_DIST_TO_SPLIT : R) (path : List (TTimeStamp × TGPSGASDataPoint R)) :
    ∀ (last_valid : TGPSGASDataPoint R) (cur : List (R × R)),
      List.Chain'
        (fun a b => (a.2 ≠ 0 ∧ a.1 ≠ 0) →
          dist hypot DEG2RAD a.1 a.2 b.1 b.2 ≤ MIN_DIST_TO_SPLIT) cur →
      (∀ a ∈ cur.getLast?, a = (last_valid.lon, last_valid.lat) ∨ ¬ (a.2 ≠ 0 ∧ a.1 ≠ 0)) →
      GuardedSegmentMaximality hypot DEG2RAD MIN_DIST_TO_SPLIT
          (rtkSegments hypot DEG2RAD MIN_DIST_TO_SPLIT last_valid cur path) ∧
      ∃ more tl, rtkSegments hypot DEG2RAD MIN_DIST_TO_SPLIT last_valid cur path
        = (cur ++ more) :: tl := by
  induction path with
  | nil =>
    intro last_valid cur hcur _
    refine ⟨⟨?_, ?_⟩, [], [], by simp [rtkSegments]⟩
    · intro seg hseg
      simp only [rtkSegments, List.mem_singleton] at hseg
      rw [hseg]
      exact hcur
    · simp [rtkSegments]
  | cons e rest ih =>
    intro last_valid cur hcur hlast
    obtain ⟨t, d⟩ := e
    simp only [rtkSegments]
    by_cases h4 : d.fix = 4
    · rw [if_neg (not_not.2 h4)]
      by_cases hlv : last_valid.lat ≠ 0 ∧ last_valid.lon ≠ 0
      · rw [if_pos hlv]
        by_cases hsplit :
            dist hypot DEG2RAD last_valid.lon last_valid.lat d.lon d.lat > MIN_DIST_TO_SPLIT
        · rw [if_pos hsplit]
          obtain ⟨⟨hwithin, hchain⟩, more, tl, heq⟩ := ih d [(d.lon, d.lat)]
            (by simp) (by simp)
          refine ⟨⟨?_, ?_⟩, [],
            rtkSegments hypot DEG2RAD MIN_DIST_TO_SPLIT d [(d.lon, d.lat)] rest, by simp⟩
          · intro seg hseg
            rcases List.mem_cons.1 hseg with h | h
            · rw [h]
              exact hcur
            · exact hwithin seg h
          · rw [heq] at hchain ⊢
            refine List.chain'_cons.2 ⟨?_, hchain⟩
            intro a ha b hb hnz
            simp only [List.singleton_append, List.head?_cons, Option.mem_def,
              Option.some.injEq] at hb
            rcases hlast a ha with ha' | ha'
            · rw [ha', ← hb]
              exact hsplit
            · exact absurd hnz ha'
        · rw [if_neg hsplit]
          obtain ⟨hmax, more, tl, heq⟩ := ih d (cur ++ [(d.lon, d.lat)])
            (by
              refine List.chain'_append.2 ⟨hcur, by simp, ?_⟩
              intro a ha b hb hnz
              simp only [List.head?_cons, Option.mem_def, Option.some.injEq] at hb
              rcases hlast a ha with ha' | ha'
              · rw [ha', ← hb]
                exact not_lt.1 hsplit
              · exact absurd hnz ha')
            (by simp)
          exact ⟨hmax, (d.lon, d.lat) :: more, tl, by simp [heq]⟩
      · rw [if_neg hlv]
        apply ih d cur hcur
        intro a ha
        rcases hlast a ha with ha' | ha'
        · right
          rw [ha']
          exact hlv
        · exact Or.inr ha'
    · rw [if_pos h4]
      exact ih last_valid cur hcur hlast

/-- What the loop does guarantee, for every path and threshold: a pair of
adjacent points of a segment, or the last point of a segment and the first
of the next, is on the right side of the threshold whenever the earlier
point has non-zero latitude and non-zero longitude. -/
theorem segmentation_guarded_maximal (hypot : R → R → R) (DEG2RAD : R → R)
    (MIN_DIST_TO_SPLIT : R) (label : String) (path : List (TTimeStamp × TGPSGASDataPoint R)) :
    GuardedSegmentMaximality hypot DEG2RAD MIN_DIST_TO_SPLIT
      (segmentation hypot DEG2RAD MIN_DIST_TO_SPLIT label path) := by
  rw [segmentation_eq]
  split_ifs with h
  · exact (rtkSegments_guarded_maximal hypot DEG2RAD MIN_DIST_TO_SPLIT path last_valid_init []
      (by simp) (by simp)).1
  · simp [GuardedSegmentMaximality]

end SegmenterLemmas

/-! ## The distance over the reals -/

theorem hypotReal_zero_right (x : ℝ) : hypotReal x 0 = |x| := by
  unfold hypotReal
  rw [show x ^ 2 + (0 : ℝ) ^ 2 = x ^ 2 by ring]
  exact Real.sqrt_sq_eq_abs x

theorem dist_real_same_lat (lon1 lon2 lat : ℝ) :
    dist hypotReal DEG2RADReal lon1 lat lon2 lat
      = 6371000 * (|lon1 - lon2| * (Real.pi / 180)) := by
  unfold dist DEG2RADReal
  rw [sub_self, hypotReal_zero_right]

theorem segmentation_split_example :
    segmentation hypotReal DEG2RADReal 200000 "GPS1"
        [(1, ⟨1, 1, 0, 4, 1⟩), (2, ⟨2, 1, 0, 4, 1⟩), (3, ⟨5, 1, 0, 4, 1⟩)]
      = [[(2, 1)], [(5, 1)]] := by
  have hpi := Real.pi_gt_three
  have hpi' := Real.pi_lt_d2
  have h1 : ¬ dist hypotReal DEG2RADReal 1 1 2 1 > 200000 := by
    rw [dist_real_same_lat]
    norm_num
    nlinarith
  have h2 : dist hypotReal DEG2RADReal 2 1 5 1 > 200000 := by
    rw [dist_real_same_lat]
    norm_num
    nlinarith
  rw [segmentation_eq]
  simp [rtkSegments, last_valid_init, h1, h2]

/-- C2 (segment maximality), what the code does instead: with the real
`hypot` and `DEG2RAD` and a threshold of 20 m, on a path of four RTK-fixed
points that goes from (lon 3, lat 4) to (lon 0, lat 4) and back to
(lon 3, lat 4), the segmentation is an empty line string followed by the
segment [(0, 4), (3, 4)], whose two adjacent points are more than 20 m
apart: segment maximality fails. -/
theorem C2_segment_holds_distant_points :
    segmentation hypotReal DEG2RADReal 20 "GPS1"
        [(1, ⟨3, 4, 0, 4, 1⟩), (2, ⟨0, 4, 0, 4, 1⟩), (3, ⟨3, 4, 0, 4, 1⟩),
         (4, ⟨3, 4, 0, 4, 1⟩)]
      = [[], [(0, 4), (3, 4)]] ∧
    dist hypotReal DEG2RADReal 0 4 3 4 > 20 ∧
    ¬ SegmentMaximality hypotReal DEG2RADReal 20
      (segmentation hypotReal DEG2RADReal 20 "GPS1"
        [(1, ⟨3, 4, 0, 4, 1⟩), (2, ⟨0, 4, 0, 4, 1⟩), (3, ⟨3, 4, 0, 4, 1⟩),
         (4, ⟨3, 4, 0, 4, 1⟩)]) := by
  have hpi := Real.pi_gt_three
  have h1 : dist hypotReal DEG2RADReal 3 4 0 4 > 20 := by
    rw [dist_real_same_lat]
    norm_num
    nlinarith
  have h2 : ¬ dist hypotReal DEG2RADReal 3 4 3 4 > 20 := by
    rw [dist_real_same_lat]
    norm_num
  have h3 : dist hypotReal DEG2RADReal 0 4 3 4 > 20 := by
    rw [dist_real_same_lat]
    norm_num
    nlinarith
  have hseg : segmentation hypotReal DEG2RADReal 20 "GPS1"
        [(1, ⟨3, 4, 0, 4, 1⟩), (2, ⟨0, 4, 0, 4, 1⟩), (3, ⟨3, 4, 0, 4, 1⟩),
         (4, ⟨3, 4, 0, 4, 1⟩)]
      = [[], [(0, 4), (3, 4)]] := by
    rw [segmentation_eq]
    simp [rtkSegments, last_valid_init, h1, h2]
  refine ⟨hseg, h3, ?_⟩
  rw [hseg]
  rintro ⟨hwithin, _⟩
  have := hwithin [(0, 4), (3, 4)] (by simp)
  simp only [WithinThreshold, List.chain'_cons, List.chain'_singleton, and_true] at this
  exact not_le.2 h3 this

/-! ## The correlator: frame, growth and the pending slots -/

section CorrelatorState

variable {R : Type} [Zero R] [One R]

/-- C15 (other kinds are a no-op). For every state, an observation that is
neither a GPS nor a gas-sensor observation makes `processOneObservation`
return true and leaves `obs`, `obsGas` and `m_gps_paths` as they were. -/
theorem C15_other_kinds_no_op (s : ProcessorState R) (timestamp : TTimeStamp) :
    processOneObservation s (.other timestamp) = (true, s) ∧
    (processOneObservation s (.other timestamp)).1 = true ∧
    (processOneObservation s (.other timestamp)).2.obs = s.obs ∧
    (processOneObservation s (.other timestamp)).2.obsGas = s.obsGas ∧
    (processOneObservation s (.other timestamp)).2.m_gps_paths = s.m_gps_paths :=
  ⟨rfl, rfl, rfl, rfl, rfl⟩

theorem processOneObservation_cases (s : ProcessorState R) (o : CObservation R) :
    (processOneObservation s o).2.m_gps_paths = s.m_gps_paths ∨
    ∃ label g, (processOneObservation s o).2.m_gps_paths
      = recordPoint label (CObservation.timestamp o) g s.m_gps_paths := by
  cases o with
  | gps g =>
    simp only [processOneObservation]
    split_ifs with hv
    · exact Or.inl rfl
    · simp only [insertNewEntries]
      split
      · exact Or.inr ⟨_, _, rfl⟩
      · exact Or.inl rfl
  | gas a =>
    simp only [processOneObservation, insertNewEntries]
    split
    · exact Or.inr ⟨_, _, rfl⟩
    · exact Or.inl rfl
  | other t => exact Or.inl rfl

theorem mem_mapModify_of_mem {K V : Type} [LinearOrder K] (dflt : V) (f : V → V) (k : K)
    (m : List (K × V)) (e : K × V) (he : e ∈ m) :
    ∃ e' ∈ mapModify dflt f k m, e'.1 = e.1 ∧ (e'.2 = e.2 ∨ e'.2 = f e.2) := by
  induction m with
  | nil => exact absurd he (List.not_mem_nil _)
  | cons e₀ rest ih =>
    obtain ⟨k', v⟩ := e₀
    simp only [mapModify]
    split_ifs with h1 h2
    · exact ⟨e, List.mem_cons_of_mem _ he, rfl, Or.inl rfl⟩
    · rcases List.mem_cons.1 he with h | h
      · subst h
        exact ⟨(k', f v), List.mem_cons_self _ _, rfl, Or.inr rfl⟩
      · exact ⟨e, List.mem_cons_of_mem _ h, rfl, Or.inl rfl⟩
    · rcases List.mem_cons.1 he with h | h
      · subst h
        exact ⟨(k', v), List.mem_cons_self _ _, rfl, Or.inl rfl⟩
      · obtain ⟨e', he', hk, hv⟩ := ih h
        exact ⟨e', List.mem_cons_of_mem _ he', hk, hv⟩

theorem length_le_mapModify {K V : Type} [LinearOrder K] (dflt : V) (f : V → V) (k : K)
    (m : List (K × V)) : m.length ≤ (mapModify dflt f k m).length := by
  induction m with
  | nil => simp
  | cons e₀ rest ih =>
    obtain ⟨k', v⟩ := e₀
    simp only [mapModify]
    split_ifs with h1 h2
    · simp
    · simp
    · simpa using ih

theorem storeHasKey_recordPoint (label : String) (ts : TTimeStamp) (g : TGPSDatum_GGA R)
    (m : List (String × TDataPerGPSGAS R)) (label' : String) (ts' : TTimeStamp)
    (hkey : storeHasKey label' ts' m) : storeHasKey label' ts' (recordPoint label ts g m) := by
  obtain ⟨e, he, hlabel, p, hp, hts⟩ := hkey
  obtain ⟨e', he', hk, hv⟩ := mem_mapModify_of_mem (⟨[]⟩ : TDataPerGPSGAS R)
    (fun D => ⟨mapModify (⟨0, 0, 0, 0, 0⟩ : TGPSGASDataPoint R) (fillPoint g) ts D.path⟩)
    label m e he
  refine ⟨e', he', hk.trans hlabel, ?_⟩
  rcases hv with hv | hv
  · rw [hv]
    exact ⟨p, hp, hts⟩
  · rw [hv]
    obtain ⟨p', hp', hk', _⟩ := mem_mapModify_of_mem (⟨0, 0, 0, 0, 0⟩ : TGPSGASDataPoint R)
      (fillPoint g) ts e.2.path p hp
    exact ⟨p', hp', hk'.trans hts⟩

theorem totalPoints_le_recordPoint (label : String) (ts : TTimeStamp) (g : TGPSDatum_GGA R)
    (m : List (String × TDataPerGPSGAS R)) :
    totalPoints m ≤ totalPoints (recordPoint label ts g m) := by
  unfold recordPoint
  induction m with
  | nil => simp [totalPoints]
  | cons e rest ih =>
    obtain ⟨l', D⟩ := e
    simp only [mapModify]
    split_ifs with h1 h2
    · simp [totalPoints]
    · have := length_le_mapModify (⟨0, 0, 0, 0, 0⟩ : TGPSGASDataPoint R) (fillPoint g) ts D.path
      simp only [totalPoints, List.map_cons, List.sum_cons] at *
      omega
    · simp only [totalPoints, List.map_cons, List.sum_cons] at *
      omega

/-- C16 (the store never shrinks). For every state and observation, every
key (sensor label, timestamp) present in `m_gps_paths` before
`processOneObservation` is present after it, and, whatever the store holds,
the number of stored points does not decrease and grows by at most one. -/
theorem C16_store_never_shrinks (s : ProcessorState R) (o : CObservation R) :
    (∀ (label : String) (ts : TTimeStamp), storeHasKey label ts s.m_gps_paths →
      storeHasKey label ts (processOneObservation s o).2.m_gps_paths) ∧
    totalPoints s.m_gps_paths ≤ totalPoints (processOneObservation s o).2.m_gps_paths ∧
    totalPoints (processOneObservation s o).2.m_gps_paths ≤ totalPoints s.m_gps_paths + 1 := by
  rcases processOneObservation_cases s o with h | ⟨l, g, h⟩
  · rw [h]
    exact ⟨fun _ _ hkey => hkey, le_refl _, Nat.le_succ _⟩
  · rw [h]
    exact ⟨fun _ _ hkey => storeHasKey_recordPoint _ _ _ _ _ _ hkey,
      totalPoints_le_recordPoint _ _ _ _, totalPoints_recordPoint_le _ _ _ _⟩

/-- C16, at two concrete inputs: a store with one point under GPS1 and a fix
pending, where the gas observation records a second point and the first key
is still there; and the empty store with a fix pending, where the gas
observation leaves at most one point. -/
theorem C16_store_never_shrinks_witness :
    storeHasKey "GPS1" 5
      (processOneObservation
        ({ m_gps_paths := [("GPS1", ⟨[(5, ⟨1, 2, 3, 1, 1⟩)]⟩)],
           obs := some ⟨"GPS1", 6, true, ⟨10, 20, 30, 4⟩⟩,
           obsGas := none } : ProcessorState ℚ)
        (.gas ⟨"GAS", 7⟩)).2.m_gps_paths ∧
    totalPoints
      (processOneObservation
        ({ m_gps_paths := [],
           obs := some ⟨"GPS1", 6, true, ⟨10, 20, 30, 4⟩⟩,
           obsGas := none } : ProcessorState ℚ)
        (.gas ⟨"GAS", 7⟩)).2.m_gps_paths ≤ 1 :=
  ⟨(C16_store_never_shrinks
      ({ m_gps_paths := [("GPS1", ⟨[(5, ⟨1, 2, 3, 1, 1⟩)]⟩)],
         obs := some ⟨"GPS1", 6, true, ⟨10, 20, 30, 4⟩⟩,
         obsGas := none } : ProcessorState ℚ)
      (.gas ⟨"GAS", 7⟩)).1 "GPS1" 5
      ⟨("GPS1", ⟨[(5, ⟨1, 2, 3, 1, 1⟩)]⟩), by simp, rfl, (5, ⟨1, 2, 3, 1, 1⟩), by simp, rfl⟩,
   (C16_store_never_shrinks
      ({ m_gps_paths := [],
         obs := some ⟨"GPS1", 6, true, ⟨10, 20, 30, 4⟩⟩,
         obsGas := none } : ProcessorState ℚ)
      (.gas ⟨"GAS", 7⟩)).2.2⟩

/-- C17 (triggering-record keying). Whenever a GPS observation with GGA datum
or a gas observation leaves both slots set, the point is recorded under the
pending fix's sensor label at the timestamp of the observation being
processed, and both slots are cleared. With a gas observation pending, a
valid fix is recorded at once at the fix's own timestamp, and a gas
observation processed next stores nothing; with a fix pending, a gas
observation records the fix at the gas observation's timestamp. -/
theorem C17_triggering_record_keying (s : ProcessorState R) (g : CObservationGPS R)
    (a a' : CObservationGasSensors) (hvalid : g.has_GGA_datum = true)
    (hgas : s.obsGas = some a) :
    processOneObservation s (.gps g)
      = (true, { m_gps_paths := recordPoint g.sensorLabel g.timestamp g.GGA_datum s.m_gps_paths
                 obs := none
                 obsGas := none }) ∧
    (processOneObservation (processOneObservation s (.gps g)).2 (.gas a')).2.m_gps_paths
      = (processOneObservation s (.gps g)).2.m_gps_paths ∧
    (∀ (s' : ProcessorState R) (g' : CObservationGPS R), s'.obs = some g' →
      processOneObservation s' (.gas a')
        = (true, { m_gps_paths :=
                     recordPoint g'.sensorLabel a'.timestamp g'.GGA_datum s'.m_gps_paths
                   obs := none
                   obsGas := none })) := by
  have h1 : processOneObservation s (.gps g)
      = (true, { m_gps_paths := recordPoint g.sensorLabel g.timestamp g.GGA_datum s.m_gps_paths
                 obs := none
                 obsGas := none }) := by
    simp [processOneObservation, insertNewEntries, hvalid, hgas, CObservation.timestamp]
  refine ⟨h1, ?_, ?_⟩
  · rw [h1]
    simp [processOneObservation, insertNewEntries]
  · intro s' g' hobs
    exact processOneObservation_gas_after_fix s' g' a' hobs

/-- C17, at a concrete input: a gas observation is pending when a valid fix
of GPS1 arrives at timestamp 6. -/
theorem C17_triggering_record_keying_witness :
    processOneObservation
        ({ m_gps_paths := [], obs := none, obsGas := some ⟨"GAS", 5⟩ } : ProcessorState ℚ)
        (.gps ⟨"GPS1", 6, true, ⟨10, 20, 30, 4⟩⟩)
      = (true, { m_gps_paths := [("GPS1", ⟨[(6, ⟨10, 20, 30, 4, 1⟩)]⟩)]
                 obs := none
                 obsGas := none }) :=
  (C17_triggering_record_keying
    ({ m_gps_paths := [], obs := none, obsGas := some ⟨"GAS", 5⟩ } : ProcessorState ℚ)
    ⟨"GPS1", 6, true, ⟨10, 20, 30, 4⟩⟩ ⟨"GAS", 5⟩ ⟨"GAS", 7⟩ rfl rfl).1

theorem pending_slots_step (s : ProcessorState R) (o : CObservation R)
    (h : s.obs = none ∨ s.obsGas = none) :
    (processOneObservation s o).2.obs = none ∨ (processOneObservation s o).2.obsGas = none := by
  cases o with
  | gps g =>
    simp only [processOneObservation]
    split_ifs with hv
    · exact Or.inl rfl
    · simp only [insertNewEntries]
      split
      · exact Or.inl rfl
      · rename_i hne
        cases hgas : s.obsGas with
        | none => exact Or.inr rfl
        | some a => exact absurd hgas (hne g a rfl)
  | gas a =>
    simp only [processOneObservation, insertNewEntries]
    split
    · exact Or.inl rfl
    · rename_i hne
      cases hobs : s.obs with
      | none => exact Or.inl rfl
      | some g => exact absurd rfl (hne g a hobs)
  | other t => exact h

theorem pending_slots_replay (stream : List (CObservation R)) :
    ∀ s : ProcessorState R, (s.obs = none ∨ s.obsGas = none) →
      ((replay s stream).obs = none ∨ (replay s stream).obsGas = none) := by
  induction stream with
  | nil =>
    intro s h
    exact h
  | cons o rest ih =>
    intro s h
    exact ih _ (pending_slots_step s o h)

/-- C18 (pending-slot invariant). For every stream replayed from the initial
state, after each call of `processOneObservation`, that is after every
prefix of the stream, `obs` and `obsGas` are not both set. -/
theorem C18_pending_slot_invariant (stream : List (CObservation R)) :
    (replay (ProcessorState.initial R) stream).obs = none ∨
    (replay (ProcessorState.initial R) stream).obsGas = none :=
  pending_slots_replay stream _ (Or.inl rfl)

end CorrelatorState

/-! ## The split decision of the RTK-only loop -/

section SplitDecision

variable {R : Type} [LinearOrderedField R]

theorem rtkLoop_cons_rtk (hypot : R → R → R) (DEG2RAD : R → R) (MIN_DIST_TO_SPLIT : R)
    (last_valid : TGPSGASDataPoint R) (t : TTimeStamp) (d : TGPSGASDataPoint R)
    (rest : List (TTimeStamp × TGPSGASDataPoint R)) (hd : d.fix = 4) :
    rtkLoop hypot DEG2RAD MIN_DIST_TO_SPLIT last_valid ((t, d) :: rest)
      = rtkStepItems hypot DEG2RAD MIN_DIST_TO_SPLIT last_valid d
        ++ rtkLoop hypot DEG2RAD MIN_DIST_TO_SPLIT d rest := by
  simp only [rtkLoop, rtkStepItems]
  rw [if_neg (not_not.2 hd)]

theorem rtkLoop_cons_skip (hypot : R → R → R) (DEG2RAD : R → R) (MIN_DIST_TO_SPLIT : R)
    (last_valid : TGPSGASDataPoint R) (t : TTimeStamp) (d : TGPSGASDataPoint R)
    (rest : List (TTimeStamp × TGPSGASDataPoint R)) (hd : d.fix ≠ 4) :
    rtkLoop hypot DEG2RAD MIN_DIST_TO_SPLIT last_valid ((t, d) :: rest)
      = rtkLoop hypot DEG2RAD MIN_DIST_TO_SPLIT last_valid rest := by
  simp only [rtkLoop]
  rw [if_pos hd]

theorem rtkLoop_append_skip (hypot : R → R → R) (DEG2RAD : R → R) (MIN_DIST_TO_SPLIT : R)
    (last_valid : TGPSGASDataPoint R) (mid rest : List (TTimeStamp × TGPSGASDataPoint R))
    (hmid : ∀ e ∈ mid, e.2.fix ≠ 4) :
    rtkLoop hypot DEG2RAD MIN_DIST_TO_SPLIT last_valid (mid ++ rest)
      = rtkLoop hypot DEG2RAD MIN_DIST_TO_SPLIT last_valid rest := by
  induction mid with
  | nil => rfl
  | cons e mid ih =>
    obtain ⟨t, d⟩ := e
    rw [List.cons_append, rtkLoop_cons_skip _ _ _ _ _ _ _ (hmid (t, d) (List.mem_cons_self _ _))]
    exact ih (fun e he => hmid e (List.mem_cons_of_mem _ he))

theorem rtkLoop_append_rtk (hypot : R → R → R) (DEG2RAD : R → R) (MIN_DIST_TO_SPLIT : R)
    (pre : List (TTimeStamp × TGPSGASDataPoint R)) (t : TTimeStamp) (p : TGPSGASDataPoint R)
    (rest : List (TTimeStamp × TGPSGASDataPoint R)) (hp : p.fix = 4) :
    ∀ last_valid : TGPSGASDataPoint R,
      rtkLoop hypot DEG2RAD MIN_DIST_TO_SPLIT last_valid (pre ++ (t, p) :: rest)
        = rtkLoop hypot DEG2RAD MIN_DIST_TO_SPLIT last_valid (pre ++ [(t, p)])
          ++ rtkLoop hypot DEG2RAD MIN_DIST_TO_SPLIT p rest := by
  induction pre with
  | nil =>
    intro last_valid
    simp only [List.nil_append]
    rw [rtkLoop_cons_rtk _ _ _ _ _ _ _ hp, rtkLoop_cons_rtk _ _ _ _ _ _ _ hp]
    simp [rtkLoop]
  | cons e pre ih =>
    intro last_valid
    obtain ⟨t', d⟩ := e
    simp only [List.cons_append]
    by_cases hd : d.fix = 4
    · rw [rtkLoop_cons_rtk _ _ _ _ _ _ _ hd, rtkLoop_cons_rtk _ _ _ _ _ _ _ hd, ih d,
        List.append_assoc]
    · rw [rtkLoop_cons_skip _ _ _ _ _ _ _ hd, rtkLoop_cons_skip _ _ _ _ _ _ _ hd, ih last_valid]

theorem rtkLoop_consecutive (hypot : R → R → R) (DEG2RAD : R → R) (MIN_DIST_TO_SPLIT : R)
    (pre mid post : List (TTimeStamp × TGPSGASDataPoint R)) (t1 t2 : TTimeStamp)
    (p d : TGPSGASDataPoint R) (hp : p.fix = 4) (hd : d.fix = 4)
    (hmid : ∀ e ∈ mid, e.2.fix ≠ 4) (last_valid : TGPSGASDataPoint R) :
    rtkLoop hypot DEG2RAD MIN_DIST_TO_SPLIT last_valid
        (pre ++ (t1, p) :: (mid ++ (t2, d) :: post))
      = rtkLoop hypot DEG2RAD MIN_DIST_TO_SPLIT last_valid (pre ++ [(t1, p)])
        ++ rtkStepItems hypot DEG2RAD MIN_DIST_TO_SPLIT p d
        ++ rtkLoop hypot DEG2RAD MIN_DIST_TO_SPLIT d post := by
  rw [rtkLoop_append_rtk _ _ _ _ _ _ _ hp, rtkLoop_append_skip _ _ _ _ _ _ hmid,
    rtkLoop_cons_rtk _ _ _ _ _ _ _ hd, List.append_assoc]

theorem LineString_END_mem_rtkStepItems (hypot : R → R → R) (DEG2RAD : R → R)
    (MIN_DIST_TO_SPLIT : R) (p d : TGPSGASDataPoint R) :
    KmlItem.LineString_END ∈ rtkStepItems hypot DEG2RAD MIN_DIST_TO_SPLIT p d ↔
      (p.lat ≠ 0 ∧ p.lon ≠ 0) ∧ dist hypot DEG2RAD p.lon p.lat d.lon d.lat > MIN_DIST_TO_SPLIT := by
  unfold rtkStepItems
  split_ifs with h1 h2
  · simp [h1, h2, printCoordinates, save_altitude]
  · simp [h1, h2, printCoordinates, save_altitude]
  · simp [h1]

theorem LineString_START_mem_rtkStepItems (hypot : R → R → R) (DEG2RAD : R → R)
    (MIN_DIST_TO_SPLIT : R) (p d : TGPSGASDataPoint R) :
    KmlItem.LineString_START ∈ rtkStepItems hypot DEG2RAD MIN_DIST_TO_SPLIT p d ↔
      (p.lat ≠ 0 ∧ p.lon ≠ 0) ∧ dist hypot DEG2RAD p.lon p.lat d.lon d.lat > MIN_DIST_TO_SPLIT := by
  unfold rtkStepItems
  split_ifs with h1 h2
  · simp [h1, h2, printCoordinates, save_altitude]
  · simp [h1, h2, printCoordinates, save_altitude]
  · simp [h1]

/-- C11 (strict threshold). Let `p` and `d` be consecutive quality-4 points
of a path (only points of other qualities lie between them). What the loop
prints between the output for the path up to `p` and the output for the
points after `d` is `rtkStepItems p d`; it closes and reopens the line string
exactly when `p` has non-zero latitude and longitude and the distance is
strictly greater than the threshold, so that a distance equal to the
threshold places no boundary. -/
theorem C11_strict_threshold (hypot : R → R → R) (DEG2RAD : R → R) (MIN_DIST_TO_SPLIT : R)
    (pre mid post : List (TTimeStamp × TGPSGASDataPoint R)) (t1 t2 : TTimeStamp)
    (p d : TGPSGASDataPoint R) (hp : p.fix = 4) (hd : d.fix = 4)
    (hmid : ∀ e ∈ mid, e.2.fix ≠ 4) :
    rtkLoop hypot DEG2RAD MIN_DIST_TO_SPLIT last_valid_init
        (pre ++ (t1, p) :: (mid ++ (t2, d) :: post))
      = rtkLoop hypot DEG2RAD MIN_DIST_TO_SPLIT last_valid_init (pre ++ [(t1, p)])
        ++ rtkStepItems hypot DEG2RAD MIN_DIST_TO_SPLIT p d
        ++ rtkLoop hypot DEG2RAD MIN_DIST_TO_SPLIT d post ∧
    (dist hypot DEG2RAD p.lon p.lat d.lon d.lat = MIN_DIST_TO_SPLIT →
      KmlItem.LineString_END ∉ rtkStepItems hypot DEG2RAD MIN_DIST_TO_SPLIT p d ∧
      KmlItem.LineString_START ∉ rtkStepItems hypot DEG2RAD MIN_DIST_TO_SPLIT p d ∧
      rtkStepItems hypot DEG2RAD MIN_DIST_TO_SPLIT p d
        = if p.lat ≠ 0 ∧ p.lon ≠ 0 then [printCoordinates d] else []) ∧
    (KmlItem.LineString_END ∈ rtkStepItems hypot DEG2RAD MIN_DIST_TO_SPLIT p d ↔
      (p.lat ≠ 0 ∧ p.lon ≠ 0) ∧
        dist hypot DEG2RAD p.lon p.lat d.lon d.lat > MIN_DIST_TO_SPLIT) ∧
    (KmlItem.LineString_START ∈ rtkStepItems hypot DEG2RAD MIN_DIST_TO_SPLIT p d ↔
      (p.lat ≠ 0 ∧ p.lon ≠ 0) ∧
        dist hypot DEG2RAD p.lon p.lat d.lon d.lat > MIN_DIST_TO_SPLIT) := by
  refine ⟨rtkLoop_consecutive _ _ _ _ _ _ _ _ _ _ hp hd hmid _, ?_,
    LineString_END_mem_rtkStepItems _ _ _ _ _, LineString_START_mem_rtkStepItems _ _ _ _ _⟩
  intro heq
  have hnot : ¬ dist hypot DEG2RAD p.lon p.lat d.lon d.lat > MIN_DIST_TO_SPLIT := by
    rw [heq]
    exact lt_irrefl _
  refine ⟨?_, ?_, ?_⟩
  · rw [LineString_END_mem_rtkStepItems]
    exact fun h => hnot h.2
  · rw [LineString_START_mem_rtkStepItems]
    exact fun h => hnot h.2
  · unfold rtkStepItems
    rw [if_neg hnot, List.nil_append]

/-- C11, at a concrete input over the reals: the threshold is the computed
distance between (lon 2, lat 1) and (lon 5, lat 1), two RTK-fixed points with
a standalone fix between them; no boundary is placed. -/
theorem C11_strict_threshold_witness :
    KmlItem.LineString_END ∉
      rtkStepItems hypotReal DEG2RADReal (dist hypotReal DEG2RADReal 2 1 5 1)
        ⟨2, 1, 0, 4, 1⟩ ⟨5, 1, 0, 4, 1⟩ :=
  ((C11_strict_threshold hypotReal DEG2RADReal (dist hypotReal DEG2RADReal 2 1 5 1)
      [] [(2, ⟨9, 9, 0, 1, 1⟩)] [] 1 3 ⟨2, 1, 0, 4, 1⟩ ⟨5, 1, 0, 4, 1⟩ rfl rfl
      (by simp)).2.1 rfl).1

/-- C14 (revisited coordinates never split). Let `hypot` and `DEG2RAD` give
`DEG2RAD (hypot 0 0) = 0`, let the threshold be non-negative, and let `p` and
`d` be consecutive quality-4 points of a path with the same longitude and
latitude. Then the computed distance is 0 and the loop places no boundary
between them: what it prints for `d` is at most the coordinate line of
`d`. -/
theorem C14_revisited_coordinates (hypot : R → R → R) (DEG2RAD : R → R)
    (MIN_DIST_TO_SPLIT : R) (pre mid post : List (TTimeStamp × TGPSGASDataPoint R))
    (t1 t2 : TTimeStamp) (p d : TGPSGASDataPoint R)
    (hzero : DEG2RAD (hypot 0 0) = 0) (hthreshold : 0 ≤ MIN_DIST_TO_SPLIT)
    (hp : p.fix = 4) (hd : d.fix = 4) (hmid : ∀ e ∈ mid, e.2.fix ≠ 4)
    (hlon : d.lon = p.lon) (hlat : d.lat = p.lat) :
    dist hypot DEG2RAD p.lon p.lat d.lon d.lat = 0 ∧
    rtkLoop hypot DEG2RAD MIN_DIST_TO_SPLIT last_valid_init
        (pre ++ (t1, p) :: (mid ++ (t2, d) :: post))
      = rtkLoop hypot DEG2RAD MIN_DIST_TO_SPLIT last_valid_init (pre ++ [(t1, p)])
        ++ (if p.lat ≠ 0 ∧ p.lon ≠ 0 then [printCoordinates d] else [])
        ++ rtkLoop hypot DEG2RAD MIN_DIST_TO_SPLIT d post ∧
    KmlItem.LineString_END ∉ rtkStepItems hypot DEG2RAD MIN_DIST_TO_SPLIT p d ∧
    KmlItem.LineString_START ∉ rtkStepItems hypot DEG2RAD MIN_DIST_TO_SPLIT p d := by
  have hdist : dist hypot DEG2RAD p.lon p.lat d.lon d.lat = 0 := by
    unfold dist
    rw [hlon, hlat, sub_self, sub_self, hzero, mul_zero]
  have hnot : ¬ dist hypot DEG2RAD p.lon p.lat d.lon d.lat > MIN_DIST_TO_SPLIT := by
    rw [hdist]
    exact not_lt.2 hthreshold
  have hstep : rtkStepItems hypot DEG2RAD MIN_DIST_TO_SPLIT p d
      = if p.lat ≠ 0 ∧ p.lon ≠ 0 then [printCoordinates d] else [] := by
    unfold rtkStepItems
    rw [if_neg hnot, List.nil_append]
  refine ⟨hdist, ?_, ?_, ?_⟩
  · rw [← hstep]
    exact rtkLoop_consecutive _ _ _ _ _ _ _ _ _ _ hp hd hmid _
  · rw [LineString_END_mem_rtkStepItems]
    exact fun h => hnot h.2
  · rw [LineString_START_mem_rtkStepItems]
    exact fun h => hnot h.2

end SplitDecision

/-! ## The distance over the reals, continued -/

theorem DEG2RADReal_hypotReal_zero : DEG2RADReal (hypotReal 0 0) = 0 := by
  rw [hypotReal_zero_right, abs_zero]
  unfold DEG2RADReal
  exact zero_mul _

/-- C14, at a concrete input over the reals, with the real `hypot` and
`DEG2RAD` and a threshold of 20 m: the point (lon 2, lat 1) is visited twice
in a row. -/
theorem C14_revisited_coordinates_witness :
    dist hypotReal DEG2RADReal 2 1 2 1 = 0 ∧
    KmlItem.LineString_START ∉
      rtkStepItems hypotReal DEG2RADReal 20 ⟨2, 1, 0, 4, 1⟩ ⟨2, 1, 5, 4, 1⟩ :=
  ⟨(C14_revisited_coordinates hypotReal DEG2RADReal 20 [] [] [] 1 2
      ⟨2, 1, 0, 4, 1⟩ ⟨2, 1, 5, 4, 1⟩ DEG2RADReal_hypotReal_zero (by norm_num) rfl rfl
      (by simp) rfl rfl).1,
   (C14_revisited_coordinates hypotReal DEG2RADReal 20 [] [] [] 1 2
      ⟨2, 1, 0, 4, 1⟩ ⟨2, 1, 5, 4, 1⟩ DEG2RADReal_hypotReal_zero (by norm_num) rfl rfl
      (by simp) rfl rfl).2.2.2⟩

/-- C13 (distance estimator). With `hypot` and `DEG2RAD` as the
specification describes them, over exact real arithmetic, the distance of
line 206 is `6.371e6 * (pi / 180) * sqrt ((lon1 - lon2)^2 + (lat1 - lat2)^2)`
for all real arguments, and it is non-negative. -/
theorem C13_distance_estimator (lon1 lat1 lon2 lat2 : ℝ) :
    dist hypotReal DEG2RADReal lon1 lat1 lon2 lat2
      = 6.371e6 * (Real.pi / 180) * Real.sqrt ((lon1 - lon2) ^ 2 + (lat1 - lat2) ^ 2) ∧
    0 ≤ dist hypotReal DEG2RADReal lon1 lat1 lon2 lat2 := by
  have heq : dist hypotReal DEG2RADReal lon1 lat1 lon2 lat2
      = 6.371e6 * (Real.pi / 180) * Real.sqrt ((lon1 - lon2) ^ 2 + (lat1 - lat2) ^ 2) := by
    unfold dist DEG2RADReal hypotReal
    norm_num
    ring
  refine ⟨heq, ?_⟩
  rw [heq]
  have hpi : 0 ≤ Real.pi := Real.pi_pos.le
  have hsqrt := Real.sqrt_nonneg ((lon1 - lon2) ^ 2 + (lat1 - lat2) ^ 2)
  positivity

/-! ## The emission rule of the RTK-only loop -/

theorem rtkData_cons {R : Type} (t : TTimeStamp) (d : TGPSGASDataPoint R)
    (rest : List (TTimeStamp × TGPSGASDataPoint R)) :
    rtkData ((t, d) :: rest) = if d.fix = 4 then d :: rtkData rest else rtkData rest := by
  unfold rtkData
  by_cases h : d.fix = 4 <;> simp [List.filter_cons, h]

theorem rtkPoints_eq_map_rtkData {R : Type} (path : List (TTimeStamp × TGPSGASDataPoint R)) :
    rtkPoints path = (rtkData path).map (fun d => (d.lon, d.lat)) := by
  unfold rtkPoints rtkData
  rw [List.map_map]
  rfl

theorem coordinatesOf_append {R : Type} (xs ys : List (KmlItem R)) :
    coordinatesOf (xs ++ ys) = coordinatesOf xs ++ coordinatesOf ys := by
  induction xs with
  | nil => rfl
  | cons x xs ih => cases x <;> simp [coordinatesOf, ih]

section EmissionRule

variable {R : Type} [LinearOrderedField R]

theorem coordinatesOf_rtkStepItems (hypot : R → R → R) (DEG2RAD : R → R)
    (MIN_DIST_TO_SPLIT : R) (last_valid d : TGPSGASDataPoint R) :
    coordinatesOf (rtkStepItems hypot DEG2RAD MIN_DIST_TO_SPLIT last_valid d)
      = if last_valid.lat ≠ 0 ∧ last_valid.lon ≠ 0 then [(d.lon, d.lat)] else [] := by
  unfold rtkStepItems
  split_ifs with h1 h2
  · simp [coordinatesOf, printCoordinates, save_altitude]
  · simp [coordinatesOf, printCoordinates, save_altitude]
  · rfl

theorem coordinatesOf_rtkLoop (hypot : R → R → R) (DEG2RAD : R → R) (MIN_DIST_TO_SPLIT : R)
    (path : List (TTimeStamp × TGPSGASDataPoint R)) :
    ∀ last_valid : TGPSGASDataPoint R,
      coordinatesOf (rtkLoop hypot DEG2RAD MIN_DIST_TO_SPLIT last_valid path)
        = (((last_valid :: rtkData path).zip (rtkData path)).filter
            (fun pd => decide (pd.1.lat ≠ 0 ∧ pd.1.lon ≠ 0))).map
            (fun pd => (pd.2.lon, pd.2.lat)) := by
  induction path with
  | nil =>
    intro last_valid
    simp [rtkLoop, rtkData, coordinatesOf]
  | cons e rest ih =>
    intro last_valid
    obtain ⟨t, d⟩ := e
    by_cases hd : d.fix = 4
    · rw [rtkLoop_cons_rtk _ _ _ _ _ _ _ hd, coordinatesOf_append, coordinatesOf_rtkStepItems,
        ih d, rtkData_cons, if_pos hd, List.zip_cons_cons, List.filter_cons]
      by_cases hlv : last_valid.lat ≠ 0 ∧ last_valid.lon ≠ 0
      · simp [hlv]
      · simp [hlv]
    · rw [rtkLoop_cons_skip _ _ _ _ _ _ _ hd, ih last_valid, rtkData_cons, if_neg hd]

theorem rtkSegments_flatten (hypot : R → R → R) (DEG2RAD : R → R) (MIN_DIST_TO_SPLIT : R)
    (path : List (TTimeStamp × TGPSGASDataPoint R)) :
    ∀ (last_valid : TGPSGASDataPoint R) (cur : List (R × R)),
      (rtkSegments hypot DEG2RAD MIN_DIST_TO_SPLIT last_valid cur path).flatten
        = cur ++ (((last_valid :: rtkData path).zip (rtkData path)).filter
            (fun pd => decide (pd.1.lat ≠ 0 ∧ pd.1.lon ≠ 0))).map
            (fun pd => (pd.2.lon, pd.2.lat)) := by
  induction path with
  | nil =>
    intro last_valid cur
    simp [rtkSegments, rtkData]
  | cons e rest ih =>
    intro last_valid cur
    obtain ⟨t, d⟩ := e
    simp only [rtkSegments, rtkData_cons]
    by_cases hd : d.fix = 4
    · rw [if_neg (not_not.2 hd), if_pos hd, List.zip_cons_cons, List.filter_cons]
      by_cases hlv : last_valid.lat ≠ 0 ∧ last_valid.lon ≠ 0
      · have hdec : decide ((last_valid, d).1.lat ≠ 0 ∧ (last_valid, d).1.lon ≠ 0) = true :=
          decide_eq_true hlv
        rw [if_pos hlv, if_pos hdec]
        by_cases hsplit :
            dist hypot DEG2RAD last_valid.lon last_valid.lat d.lon d.lat > MIN_DIST_TO_SPLIT
        · rw [if_pos hsplit]
          simp [ih]
        · rw [if_neg hsplit]
          simp [ih]
      · have hdec : ¬ decide ((last_valid, d).1.lat ≠ 0 ∧ (last_valid, d).1.lon ≠ 0) = true :=
          fun h => hlv (of_decide_eq_true h)
        rw [if_neg hlv, if_neg hdec]
        exact ih d cur
    · rw [if_pos hd, if_neg hd]
      exact ih last_valid cur

theorem emissionRule_of_init (q : List (TGPSGASDataPoint R)) :
    (((last_valid_init :: q).zip q).filter
        (fun pd => decide (pd.1.lat ≠ 0 ∧ pd.1.lon ≠ 0))).map
        (fun pd => (pd.2.lon, pd.2.lat))
      = emissionRule q := by
  unfold emissionRule
  cases q with
  | nil => rfl
  | cons d q => simp [List.filter_cons, last_valid_init]

theorem emissionRule_sublist_tail (q : List (TGPSGASDataPoint R)) :
    (emissionRule q).Sublist ((q.map (fun d => (d.lon, d.lat))).tail) := by
  unfold emissionRule
  have hzip : (q.zip q.tail).map (fun pd => (pd.2.lon, pd.2.lat))
      = (q.map (fun d => (d.lon, d.lat))).tail := by
    rw [← List.map_tail]
    have hsnd := List.map_snd_zip q q.tail (by rw [List.length_tail]; exact Nat.sub_le _ _)
    calc (q.zip q.tail).map (fun pd => (pd.2.lon, pd.2.lat))
        = ((q.zip q.tail).map Prod.snd).map (fun d => (d.lon, d.lat)) := by
          rw [List.map_map]
          rfl
      _ = q.tail.map (fun d => (d.lon, d.lat)) := by rw [hsnd]
  rw [← hzip]
  exact (List.filter_sublist _).map _

theorem emissionRule_example :
    emissionRule ([⟨3, 4, 0, 4, 1⟩, ⟨0, 4, 0, 4, 1⟩, ⟨3, 4, 0, 4, 1⟩, ⟨5, 4, 0, 4, 1⟩] :
        List (TGPSGASDataPoint ℚ))
      = [(0, 4), (5, 4)] := by
  simp [emissionRule, List.filter_cons]

theorem rtkSegments_ne_nil (hypot : R → R → R) (DEG2RAD : R → R) (MIN_DIST_TO_SPLIT : R)
    (path : List (TTimeStamp × TGPSGASDataPoint R)) (last_valid : TGPSGASDataPoint R)
    (cur : List (R × R)) :
    rtkSegments hypot DEG2RAD MIN_DIST_TO_SPLIT last_valid cur path ≠ [] := by
  induction path generalizing last_valid cur with
  | nil => simp [rtkSegments]
  | cons e rest ih =>
    obtain ⟨t, d⟩ := e
    simp only [rtkSegments]
    split_ifs
    · exact ih _ _
    · simp
    · exact ih _ _
    · exact ih _ _

/-- The flag `hasSomeRTK` is true exactly when the path has a point of fix
quality 4, and exactly when the RTK-only block has a line string at all, be
it an empty one. -/
theorem hasSomeRTK_iff_lineStrings_ne_nil (hypot : R → R → R) (DEG2RAD : R → R)
    (MIN_DIST_TO_SPLIT : R) (label : String) (path : List (TTimeStamp × TGPSGASDataPoint R)) :
    (hasSomeRTK label path = true ↔
      segmentation hypot DEG2RAD MIN_DIST_TO_SPLIT label path ≠ []) ∧
    (hasSomeRTK label path = true ↔ rtkPoints path ≠ []) := by
  rw [segmentation_eq, hasSomeRTK_eq_any]
  constructor
  · by_cases h : path.any (fun e => e.2.fix == 4) = true
    · rw [if_pos h]
      exact ⟨fun _ => rtkSegments_ne_nil _ _ _ _ _ _, fun _ => h⟩
    · rw [if_neg h]
      exact ⟨fun h' => absurd h' h, fun h' => absurd rfl h'⟩
  · unfold rtkPoints
    rw [List.any_eq_true, Ne, List.map_eq_nil_iff, List.filter_eq_nil_iff]
    constructor
    · rintro ⟨e, he, hfix⟩ hall
      exact hall e he hfix
    · intro hnot
      by_contra hex
      exact hnot (fun e he hfix => hex ⟨e, he, hfix⟩)

theorem segmentation_of_single_rtk (hypot : R → R → R) (DEG2RAD : R → R)
    (MIN_DIST_TO_SPLIT : R) (label : String) (path : List (TTimeStamp × TGPSGASDataPoint R))
    (hone : (rtkPoints path).length = 1) :
    segmentation hypot DEG2RAD MIN_DIST_TO_SPLIT label path = [[]] := by
  have hany : path.any (fun e => e.2.fix == 4) = true := by
    by_contra hnot
    have hnone : rtkPoints path = [] := by
      unfold rtkPoints
      rw [List.map_eq_nil_iff, List.filter_eq_nil_iff]
      intro e he hfix
      exact hnot (List.any_eq_true.2 ⟨e, he, hfix⟩)
    rw [hnone] at hone
    exact absurd hone (by simp)
  rw [segmentation_eq, if_pos hany]
  exact rtkSegments_of_single_rtk _ _ _ _ _ _ (by simp [last_valid_init]) hone

/-- C12 (has-RTK derivation), what the code does instead: for every path
with exactly one point of fix quality 4, the flag `hasSomeRTK` is true, yet
the segmentation has no segment that holds a point: its line strings are all
empty, so in the sense of the specification, whose Segments are non-empty,
the segmentation result is empty while the flag is true. -/
theorem C12_flag_true_without_segment (hypot : R → R → R) (DEG2RAD : R → R)
    (MIN_DIST_TO_SPLIT : R) (label : String) (path : List (TTimeStamp × TGPSGASDataPoint R))
    (hone : (rtkPoints path).length = 1) :
    hasSomeRTK label path = true ∧
    nonEmptySegments (segmentation hypot DEG2RAD MIN_DIST_TO_SPLIT label path) = [] ∧
    (segmentation hypot DEG2RAD MIN_DIST_TO_SPLIT label path).flatten = [] := by
  have hflag : hasSomeRTK label path = true := by
    rw [(hasSomeRTK_iff_lineStrings_ne_nil hypot DEG2RAD MIN_DIST_TO_SPLIT label path).2]
    intro hnil
    rw [hnil] at hone
    exact absurd hone (by simp)
  rw [segmentation_of_single_rtk hypot DEG2RAD MIN_DIST_TO_SPLIT label path hone]
  exact ⟨hflag, by simp [nonEmptySegments], by simp⟩

/-- C12, at the failing input: a path whose only point is RTK-fixed. -/
theorem C12_flag_true_without_segment_witness :
    hasSomeRTK "GPS1" ([(1, ⟨2, 3, 0, 4, 1⟩)] : List (TTimeStamp × TGPSGASDataPoint ℝ)) = true ∧
    nonEmptySegments
      (segmentation hypotReal DEG2RADReal 20 "GPS1" [(1, ⟨2, 3, 0, 4, 1⟩)]) = [] :=
  ⟨(C12_flag_true_without_segment hypotReal DEG2RADReal 20 "GPS1" [(1, ⟨2, 3, 0, 4, 1⟩)]
      (by simp [rtkPoints])).1,
   (C12_flag_true_without_segment hypotReal DEG2RADReal 20 "GPS1" [(1, ⟨2, 3, 0, 4, 1⟩)]
      (by simp [rtkPoints])).2.1⟩

/-- C19 (exact emission rule). For every path, the coordinate lines that the
loop of the RTK-only block prints, in order, are those given by the emission
rule on the quality-4 points: a quality-4 point is written exactly when it
has a predecessor among the quality-4 points and that predecessor has
non-zero latitude and non-zero longitude. The points of the segmentation are
these same points; they form a subsequence of the quality-4 points after the
first; and for a quality-4 point reached with a `last_valid` of zero
latitude or zero longitude the loop prints nothing at all, neither the point
nor a boundary. -/
theorem C19_exact_emission_rule (hypot : R → R → R) (DEG2RAD : R → R)
    (MIN_DIST_TO_SPLIT : R) (label : String) (path : List (TTimeStamp × TGPSGASDataPoint R)) :
    coordinatesOf (rtkLoop hypot DEG2RAD MIN_DIST_TO_SPLIT last_valid_init path)
      = emissionRule (rtkData path) ∧
    (segmentation hypot DEG2RAD MIN_DIST_TO_SPLIT label path).flatten
      = emissionRule (rtkData path) ∧
    (emissionRule (rtkData path)).Sublist (rtkPoints path).tail ∧
    (∀ (last_valid d : TGPSGASDataPoint R) (t : TTimeStamp)
        (rest : List (TTimeStamp × TGPSGASDataPoint R)),
      d.fix = 4 → ¬ (last_valid.lat ≠ 0 ∧ last_valid.lon ≠ 0) →
        rtkStepItems hypot DEG2RAD MIN_DIST_TO_SPLIT last_valid d = [] ∧
        rtkLoop hypot DEG2RAD MIN_DIST_TO_SPLIT last_valid ((t, d) :: rest)
          = rtkLoop hypot DEG2RAD MIN_DIST_TO_SPLIT d rest) := by
  refine ⟨?_, ?_, ?_, ?_⟩
  · rw [coordinatesOf_rtkLoop, emissionRule_of_init]
  · rw [segmentation_eq]
    split_ifs with h
    · rw [rtkSegments_flatten, emissionRule_of_init, List.nil_append]
    · have hq : rtkData path = [] := by
        unfold rtkData
        rw [List.map_eq_nil_iff, List.filter_eq_nil_iff]
        intro e he hfix
        exact h (List.any_eq_true.2 ⟨e, he, hfix⟩)
      rw [hq]
      rfl
  · rw [rtkPoints_eq_map_rtkData]
    exact emissionRule_sublist_tail _
  · intro last_valid d t rest hd hlv
    have hstep : rtkStepItems hypot DEG2RAD MIN_DIST_TO_SPLIT last_valid d = [] := by
      unfold rtkStepItems
      rw [if_neg hlv]
    refine ⟨hstep, ?_⟩
    rw [rtkLoop_cons_rtk _ _ _ _ _ _ _ hd, hstep, List.nil_append]

end EmissionRule

end RawlogGpsGas
